import Mathlib

/-! # perf builtin-test: the self-monitoring read path and the record tests

A shallow embedding of `mmap_read_self`, `test__basic_mmap`,
`test__PERF_RECORD`, `test__syscall_open_tp_fields`, `perf_evsel__test_field`
and the test selection (`perf_test__matches`, `__cmd_test`, `perf_test__list`)
from `tools/perf/builtin-test.c`.

Machine integers are natural numbers reduced modulo `2 ^ 32` (`u32`) or
`2 ^ 64` (`u64`) after every operation that can wrap.  The file is compiled for
x86 only (`#if defined(__x86_64__) || defined(__i386__)`), so the two
operations that ISO C leaves open are given their x86-64 meaning: a shift takes
its count modulo the operand width (`SHL`/`SHR`), and a division by zero raises
the divide error trap instead of returning.
-/

namespace PerfTest

/-! ## Machine arithmetic -/

/-- Number of values of a `u32`. -/
def U32 : Nat := 2 ^ 32

/-- Number of values of a `u64`. -/
def U64 : Nat := 2 ^ 64

/-- Two's complement wrap of an integer into the range of a 32-bit `int`. -/
def wrap_int (z : Int) : Int := (z + 2 ^ 31) % 2 ^ 32 - 2 ^ 31

/-- The C expression `a << s` on an `int` left operand: a 32-bit `SHL`, whose
count is taken modulo 32. -/
def shl_int (a : Int) (s : Nat) : Int := wrap_int (a * 2 ^ (s % 32))

/-- Conversion of an `int` to `u64` (sign extension). -/
def int_to_u64 (z : Int) : Nat := (z % 2 ^ 64).toNat

/-- The C expression `x >> s` on a `u64` left operand: a 64-bit `SHR`, whose
count is taken modulo 64. -/
def shr_u64 (x s : Nat) : Nat := x >>> (s % 64)

/-! ## mmap_read_self -/

/-- The fields of `struct perf_event_mmap_page` that `mmap_read_self` loads.
The structure is declared in a kernel header; each load below truncates the
value to the width of the local variable that receives it. -/
structure perf_event_mmap_page where
  lock : Nat
  index : Nat
  offset : Nat
  time_enabled : Nat
  time_running : Nat
  time_shift : Nat
  time_mult : Nat
  time_offset : Nat

/-- What one pass through the body of the `do ... while` loop can observe.  The
producer may write between any two loads, so every load has its own value:
`lock0` is the load `seq = pc->lock` that opens the pass, `lock1` the load in
the loop condition that closes it, `tsc` is what `rdtsc()` would return and
`pmc c` what `rdpmc(c)` would return during the pass. -/
structure Pass where
  lock0 : Nat
  time_enabled : Nat
  time_running : Nat
  tsc : Nat
  time_mult : Nat
  time_shift : Nat
  time_offset : Nat
  index : Nat
  offset : Nat
  pmc : Nat → Nat
  lock1 : Nat

/-- The local variables of `mmap_read_self` that live across the loop. -/
structure Locals where
  seq : Nat
  idx : Nat
  time_mult : Nat
  time_shift : Nat
  count : Nat
  cyc : Nat
  time_offset : Nat
  enabled : Nat
  running : Nat

/-- The locals on entry: `time_mult`, `time_shift`, `cyc` and `time_offset`
are initialised to 0, the others are assigned before their first use. -/
def Locals.entry : Locals :=
  { seq := 0, idx := 0, time_mult := 0, time_shift := 0, count := 0, cyc := 0,
    time_offset := 0, enabled := 0, running := 0 }

/-- The body of the `do ... while` loop, lines 957-975. -/
def loop_body (l : Locals) (o : Pass) : Locals :=
  let seq := o.lock0 % U32
  let enabled := o.time_enabled % U64
  let running := o.time_running % U64
  let cyc := if enabled ≠ running then o.tsc % U64 else l.cyc
  let time_mult := if enabled ≠ running then o.time_mult % U32 else l.time_mult
  let time_shift := if enabled ≠ running then o.time_shift % U32 else l.time_shift
  let time_offset := if enabled ≠ running then o.time_offset % U64 else l.time_offset
  let idx := o.index % U32
  let count := o.offset % U64
  let count := if idx ≠ 0 then (count + o.pmc (idx - 1) % U64) % U64 else count
  { seq := seq, idx := idx, time_mult := time_mult, time_shift := time_shift,
    count := count, cyc := cyc, time_offset := time_offset, enabled := enabled,
    running := running }

/-- The loop condition `pc->lock != seq` is false: the pass is the last one. -/
def Pass.agrees (o : Pass) : Prop := o.lock1 % U32 = o.lock0 % U32

instance (o : Pass) : Decidable o.agrees := by
  unfold Pass.agrees; infer_instance

/-- The `do ... while (pc->lock != seq)` loop, lines 956-976.  Pass number `i`
observes `obs i`; `none` means that the loop condition was still true after
`fuel` passes. -/
def read_loop : Nat → (Nat → Pass) → Nat → Locals → Option Locals
  | 0, _, _, _ => none
  | fuel + 1, obs, i, l =>
    let l1 := loop_body l (obs i)
    if (obs i).lock1 % U32 ≠ l1.seq then read_loop fuel obs (i + 1) l1 else some l1

/-- The mask `(1 << time_shift) - 1` of line 982: the constant `1` is an `int`,
so the shift and the subtraction are 32-bit, and the result is converted to
`u64` for the `&` with `cyc`. -/
def low_mask (time_shift : Nat) : Nat :=
  int_to_u64 (wrap_int (shl_int 1 time_shift - 1))

/-- The elapsed time `delta` of lines 981-984. -/
def mmap_delta (cyc time_mult time_shift time_offset : Nat) : Nat :=
  let quot := shr_u64 cyc time_shift
  let rem := cyc &&& low_mask time_shift
  ((time_offset + (quot * time_mult) % U64) % U64
    + shr_u64 ((rem * time_mult) % U64) time_shift) % U64

/-- The rescaling of lines 990-992, for a nonzero `running`. -/
def rescale (count enabled running : Nat) : Nat :=
  let quot := count / running
  let rem := count % running
  ((quot * enabled) % U64 + ((rem * enabled) % U64) / running) % U64

/-- How a call of `mmap_read_self` ends. -/
inductive Outcome where
  /-- The function returned `count`. -/
  | returned (count : Nat)
  /-- The division `count / running` was evaluated with `running == 0`. -/
  | divide_error
  /-- The loop condition was still true when the fuel ran out. -/
  | still_looping
  deriving DecidableEq, Repr

/-- The code after the loop, lines 978-995. -/
def scale_and_return (l : Locals) : Outcome :=
  if l.enabled ≠ l.running then
    let delta := mmap_delta l.cyc l.time_mult l.time_shift l.time_offset
    let enabled := (l.enabled + delta) % U64
    let running := if l.idx ≠ 0 then (l.running + delta) % U64 else l.running
    if running = 0 then Outcome.divide_error
    else Outcome.returned (rescale l.count enabled running)
  else Outcome.returned l.count

/-- The function `mmap_read_self`, run for at most `fuel` passes of its loop
against the observations `obs`. -/
def mmap_read_self (fuel : Nat) (obs : Nat → Pass) : Outcome :=
  match read_loop fuel obs 0 Locals.entry with
  | none => Outcome.still_looping
  | some l => scale_and_return l

/-- What `mmap_read_self` computes when its one and only pass observes `o`. -/
def snapshot_result (o : Pass) : Outcome :=
  scale_and_return (loop_body Locals.entry o)

/-- The pass that observes the page `pc` unchanged from its first load to its
last, with the hardware registers reading `tsc` and `pmc`. -/
def Pass.of_page (pc : perf_event_mmap_page) (tsc : Nat) (pmc : Nat → Nat) : Pass :=
  { lock0 := pc.lock, time_enabled := pc.time_enabled, time_running := pc.time_running,
    tsc := tsc, time_mult := pc.time_mult, time_shift := pc.time_shift,
    time_offset := pc.time_offset, index := pc.index, offset := pc.offset,
    pmc := pmc, lock1 := pc.lock }

/-! ## Concrete observations -/

/-- A pass during which `lock` stays at the odd value 1; the page shows
`offset == 7`, no register and equal times. -/
def odd_lock_pass : Pass :=
  { lock0 := 1, time_enabled := 5, time_running := 5, tsc := 0, time_mult := 0,
    time_shift := 0, time_offset := 0, index := 0, offset := 7, pmc := fun _ => 0,
    lock1 := 1 }

/-- A pass during which `lock` stays at the even value 2; the page shows
`offset == 9`. -/
def even_lock_pass : Pass :=
  { lock0 := 2, time_enabled := 5, time_running := 5, tsc := 0, time_mult := 0,
    time_shift := 0, time_offset := 0, index := 0, offset := 9, pmc := fun _ => 0,
    lock1 := 2 }

/-- The reader first sees the page with an odd, unchanging lock, then with an
even one. -/
def odd_then_even : Nat → Pass := fun i => if i = 0 then odd_lock_pass else even_lock_pass

/-- A pass cut by a producer update: `lock` goes from 2 to 3 inside it, and the
multiplexed times and scaling fields it loads are half written. -/
def torn_pass (tsc : Nat) : Pass :=
  { lock0 := 2, time_enabled := 900, time_running := 30, tsc := tsc, time_mult := 77,
    time_shift := 3, time_offset := 1234, index := 2, offset := 55,
    pmc := fun _ => 1000, lock1 := 3 }

/-- A pass over a settled page at `lock == 4`, multiplexed (20 enabled, 10
running), counter register 1 assigned. -/
def settled_pass : Pass :=
  { lock0 := 4, time_enabled := 20, time_running := 10, tsc := 16, time_mult := 3,
    time_shift := 2, time_offset := 0, index := 2, offset := 100,
    pmc := fun c => if c = 1 then 11 else 0, lock1 := 4 }

/-- One torn pass, then settled passes. -/
def torn_then_settled (tsc : Nat) : Nat → Pass :=
  fun i => if i = 0 then torn_pass tsc else settled_pass

/-- A producer that is inside an update during every pass: pass `i` opens at
`lock == 2 * i` and closes at `lock == 2 * i + 1`. -/
def busy_writer : Nat → Pass := fun i =>
  { lock0 := 2 * i, time_enabled := 0, time_running := 0, tsc := 0, time_mult := 0,
    time_shift := 0, time_offset := 0, index := 0, offset := 0, pmc := fun _ => 0,
    lock1 := 2 * i + 1 }

/-- Pass `k` of `obs` is the one the loop ends in: every earlier pass saw the
lock change, pass `k` did not. -/
def accepted_at (obs : Nat → Pass) (k : Nat) : Prop :=
  (∀ j, j < k → ¬ (obs j).agrees) ∧ (obs k).agrees

instance (obs : Nat → Pass) (k : Nat) : Decidable (accepted_at obs k) := by
  unfold accepted_at; infer_instance

/-- Every value the pass loads fits the width of the local that receives it. -/
def Pass.in_range (o : Pass) : Prop :=
  o.lock0 < U32 ∧ o.lock1 < U32 ∧ o.index < U32 ∧ o.time_mult < U32 ∧
    o.time_shift < U32 ∧ o.time_enabled < U64 ∧ o.time_running < U64 ∧
    o.time_offset < U64 ∧ o.offset < U64 ∧ o.tsc < U64 ∧ o.pmc (o.index - 1) < U64

instance (o : Pass) : Decidable o.in_range := by
  unfold Pass.in_range; infer_instance

/-- The value of `delta` after line 984 when the final pass is `o` and the times
differ. -/
def Pass.delta (o : Pass) : Nat :=
  mmap_delta (o.tsc % U64) (o.time_mult % U32) (o.time_shift % U32) (o.time_offset % U64)

/-- The value of `running` at the divisions of lines 990-992 when the final
pass is `o` and the times differ. -/
def Pass.divisor (o : Pass) : Nat :=
  if o.index % U32 ≠ 0 then (o.time_running % U64 + o.delta) % U64 else o.time_running % U64

/-- The fixed-point transform as the specification writes it: the mask is the
`time_shift` low bits of a 64-bit value, sums and products are modulo 2^64. -/
def spec_delta (ts time_mult time_shift time_offset : Nat) : Nat :=
  ((time_offset + ((ts >>> time_shift) * time_mult) % U64) % U64
    + (((ts &&& (1 <<< time_shift - 1)) * time_mult) % U64) >>> time_shift) % U64

/-- The reference definition of the self-read on a snapshot `o`, written from
its description: the raw count `c`, returned unchanged when the times are
equal, otherwise rescaled with the times advanced by `delta`, the fixed-point
elapsed time as the specification writes it (`spec_delta`); the rescaling has
no value when its divisor is 0. -/
def reference_read_self (o : Pass) : Outcome :=
  let c := (o.offset + (if o.index ≠ 0 then o.pmc (o.index - 1) else 0)) % U64
  if o.time_enabled = o.time_running then Outcome.returned c
  else
    let delta := spec_delta o.tsc o.time_mult o.time_shift o.time_offset
    let enabled' := (o.time_enabled + delta) % U64
    let running' := if o.index ≠ 0 then (o.time_running + delta) % U64 else o.time_running
    if running' = 0 then Outcome.divide_error
    else Outcome.returned
      (((c / running') * enabled' % U64 + ((c % running') * enabled' % U64) / running') % U64)

/-- A pass over a settled, multiplexed page (2 enabled, 1 running, no register,
`offset == 1`) whose `time_shift` is 32, read at the timestamp 2^32 + 2 with
`time_mult == 2^31`. -/
def wide_shift_pass : Pass :=
  { lock0 := 4, time_enabled := 2, time_running := 1, tsc := 4294967298,
    time_mult := 2147483648, time_shift := 32, time_offset := 0, index := 0, offset := 1,
    pmc := fun _ => 0, lock1 := 4 }

/-- A settled page with counter register 0 assigned (`index == 1`) and equal
times. -/
def counting_page : perf_event_mmap_page :=
  { lock := 2, index := 1, offset := 0, time_enabled := 5, time_running := 5,
    time_shift := 0, time_mult := 0, time_offset := 0 }

/-- A pass over a settled page without register (`index == 0`), multiplexed:
4 enabled, 2 running, `offset == 10`, and a zero `delta`. -/
def unassigned_pass : Pass :=
  { lock0 := 6, time_enabled := 4, time_running := 2, tsc := 0, time_mult := 0,
    time_shift := 0, time_offset := 0, index := 0, offset := 10, pmc := fun _ => 0,
    lock1 := 6 }

/-- A pass over a settled page without register whose counter never ran:
1 enabled, 0 running. -/
def never_ran_pass : Pass :=
  { lock0 := 6, time_enabled := 1, time_running := 0, tsc := 0, time_mult := 0,
    time_shift := 0, time_offset := 0, index := 0, offset := 10, pmc := fun _ => 0,
    lock1 := 6 }

/-- A settled, multiplexed page (20 enabled, 10 running) with counter
register 1 assigned (`index == 2`). -/
def multiplexed_page : perf_event_mmap_page :=
  { lock := 4, index := 2, offset := 100, time_enabled := 20, time_running := 10,
    time_shift := 2, time_mult := 3, time_offset := 0 }

/-- A pass cut by a producer update while register 1 is still assigned, then
passes over the settled page without register. -/
def torn_then_unassigned : Nat → Pass :=
  fun i => if i = 0 then torn_pass 8 else unassigned_pass

/-! ## test__basic_mmap -/

/-- Modelled from the spec: the record type tag SAMPLE of the record header
(section 3); its value is the enumerator of `linux/perf_event.h`, a header that
is not among the sources. -/
def PERF_RECORD_SAMPLE : Nat := 9

/-- One record handed out by `perf_evlist__mmap_read`, with what the calls made
on it return: `type` is `event->header.type`, `parse_err` the return value of
`perf_evlist__parse_sample` and `id` the `sample.id` it fills in. -/
structure mmap_event where
  type : Nat
  parse_err : Int
  id : Nat

/-- What the external calls of `test__basic_mmap` return.  Pointers are
recorded as `true` when they are not NULL, `sched_setaffinity` is the return
value of the call that is tested (line 512).  `events` is the sequence of records
`perf_evlist__mmap_read` returns before it returns NULL, and
`perf_evlist__id2evsel` gives the `idx` of the evsel found for a sample id,
`none` standing for NULL. -/
structure basic_mmap_env where
  trace_event__id : Fin 4 → Int
  random : Fin 4 → Nat
  thread_map__new : Bool
  cpu_map__new : Bool
  sched_setaffinity : Int
  perf_evlist__new : Bool
  perf_evsel__new : Fin 4 → Bool
  perf_evsel__open : Fin 4 → Int
  perf_evlist__mmap : Int
  events : List mmap_event
  perf_evlist__id2evsel : Nat → Option (Fin 4)

/-- The variables `err` and `nr_events` of `test__basic_mmap`. -/
structure basic_mmap_state where
  err : Int
  nr_events : Fin 4 → Nat

/-- The `while` loop of lines 558-580.  `Except.error err` is a `goto
out_munmap` taken with that value of `err`; `Except.ok` is the loop ending
because `perf_evlist__mmap_read` returned NULL. -/
def drain_events (id2evsel : Nat → Option (Fin 4)) :
    List mmap_event → basic_mmap_state → Except Int basic_mmap_state
  | [], st => Except.ok st
  | event :: rest, st =>
    if event.type ≠ PERF_RECORD_SAMPLE then Except.error st.err
    else
      let err := event.parse_err
      if err ≠ 0 then Except.error err
      else
        match id2evsel event.id with
        | none => Except.error err
        | some idx =>
          drain_events id2evsel rest
            { err := err,
              nr_events := Function.update st.nr_events idx ((st.nr_events idx + 1) % U32) }

/-- The array `expected_nr_events`, filled at line 494. -/
def expected_nr_events (env : basic_mmap_env) : Fin 4 → Nat :=
  fun i => env.random i % 257

/-- The function `test__basic_mmap`, lines 460-605; the value is what
`return err` returns. -/
def test__basic_mmap (env : basic_mmap_env) : Int :=
  let err : Int := -1
  if ∃ i, env.trace_event__id i < 0 then -1
  else if env.thread_map__new = false then -1
  else if env.cpu_map__new = false then err
  else if env.sched_setaffinity < 0 then err
  else if env.perf_evlist__new = false then err
  else if ∃ i, env.perf_evsel__new i = false ∨ env.perf_evsel__open i < 0 then err
  else if env.perf_evlist__mmap < 0 then err
  else
    match drain_events env.perf_evlist__id2evsel env.events
        { err := err, nr_events := fun _ => 0 } with
    | Except.error err => err
    | Except.ok st =>
      if ∃ idx, st.nr_events idx ≠ expected_nr_events env idx then st.err
      else 0

/-- A run in which every setup call succeeds, two `getsid` calls and no others
are expected (`random()` gives 2, 0, 0, 0), and the ring buffer hands out a
single SAMPLE, whose id 1 belongs to the first evsel. -/
def one_sample_short_env : basic_mmap_env :=
  { trace_event__id := fun _ => 1, random := fun i => if i = 0 then 2 else 0,
    thread_map__new := true, cpu_map__new := true, sched_setaffinity := 0,
    perf_evlist__new := true, perf_evsel__new := fun _ => true,
    perf_evsel__open := fun _ => 0, perf_evlist__mmap := 0,
    events := [{ type := 9, parse_err := 0, id := 1 }],
    perf_evlist__id2evsel := fun id => if id = 1 then some 0 else none }

/-- A run in which every setup call succeeds, no syscall is made (`random()`
gives 0 four times), the evsels have the sample ids 1 to 4, and the ring buffer
hands out a single SAMPLE carrying the id 99. -/
def orphan_sample_env : basic_mmap_env :=
  { trace_event__id := fun _ => 1, random := fun _ => 0,
    thread_map__new := true, cpu_map__new := true, sched_setaffinity := 0,
    perf_evlist__new := true, perf_evsel__new := fun _ => true,
    perf_evsel__open := fun _ => 0, perf_evlist__mmap := 0,
    events := [{ type := 9, parse_err := 0, id := 99 }],
    perf_evlist__id2evsel := fun id =>
      if id = 1 then some 0 else if id = 2 then some 1
      else if id = 3 then some 2 else if id = 4 then some 3 else none }

/-! ## test__syscall_open_tp_fields -/

/-- One record handed out by `perf_evlist__mmap_read` in
`test__syscall_open_tp_fields`: `type` is `event->header.type`, `parse_err`
the return value of `perf_evsel__parse_sample` and `tp_flags` the value
`perf_evsel__intval(evsel, &sample, "flags")` converted to `int`. -/
structure tp_event where
  type : Nat
  parse_err : Int
  tp_flags : Int

/-- What the external calls of `test__syscall_open_tp_fields` return.  Pointers
are recorded as `true` when they are not NULL; `flags` is the value of
`O_RDONLY | O_DIRECTORY`; `rounds n` lists, for the pass number `n` of the
outer `while (1)` loop, the records each of the `nr_mmaps` mappings hands out
before `perf_evlist__mmap_read` returns NULL. -/
structure open_tp_env where
  perf_evlist__new : Bool
  perf_evsel__newtp : Bool
  perf_evlist__create_maps : Int
  perf_evlist__open : Int
  perf_evlist__mmap : Int
  flags : Int
  rounds : Nat → List (List tp_event)

/-- How a scan of the mappings leaves the loops: by `goto out_munmap` or
`goto out_ok`, both with the current `err`, or by running out of records. -/
inductive tp_exit where
  | out_munmap (err : Int)
  | out_ok (err : Int)
  | empty (err : Int)

/-- The inner `while` loop of lines 1358-1383 on one mapping. -/
def tp_read_events (flags : Int) : List tp_event → Int → tp_exit
  | [], err => tp_exit.empty err
  | event :: rest, err =>
    if event.type ≠ PERF_RECORD_SAMPLE then tp_read_events flags rest err
    else
      let err := event.parse_err
      if err ≠ 0 then tp_exit.out_munmap err
      else if flags ≠ event.tp_flags then tp_exit.out_munmap err
      else tp_exit.out_ok err

/-- The `for` loop over the mappings, lines 1355-1384. -/
def tp_read_mmaps (flags : Int) : List (List tp_event) → Int → tp_exit
  | [], err => tp_exit.empty err
  | events :: rest, err =>
    match tp_read_events flags events err with
    | tp_exit.empty err => tp_read_mmaps flags rest err
    | other => other

/-- The `while (1)` loop of lines 1352-1393 followed by the labels `out_ok` and
`out_munmap`; `left` is the number of passes that `++nr_polls > 5` still
allows, 6 on entry, so the case `left = 0` is not reached from there. -/
def tp_poll_loop (flags : Int) (rounds : Nat → List (List tp_event)) :
    Nat → Nat → Int → Int
  | 0, _, err => err
  | left + 1, nr_polls, err =>
    match tp_read_mmaps flags (rounds nr_polls) err with
    | tp_exit.out_munmap err => err
    | tp_exit.out_ok _ => 0
    | tp_exit.empty err =>
      if nr_polls + 1 > 5 then err
      else tp_poll_loop flags rounds left (nr_polls + 1) err

/-- The function `test__syscall_open_tp_fields`, lines 1292-1402. -/
def test__syscall_open_tp_fields (env : open_tp_env) : Int :=
  let err : Int := -1
  if env.perf_evlist__new = false then err
  else if env.perf_evsel__newtp = false then err
  else
    let err := env.perf_evlist__create_maps
    if err < 0 then err
    else
      let err := env.perf_evlist__open
      if err < 0 then err
      else
        let err := env.perf_evlist__mmap
        if err < 0 then err
        else tp_poll_loop env.flags env.rounds 6 0 err

/-- A run in which setup succeeds, `O_RDONLY | O_DIRECTORY` is 0200000, and the
first pass reads one SAMPLE whose "flags" field is 0. -/
def wrong_flags_env : open_tp_env :=
  { perf_evlist__new := true, perf_evsel__newtp := true, perf_evlist__create_maps := 0,
    perf_evlist__open := 0, perf_evlist__mmap := 0, flags := 65536,
    rounds := fun n => if n = 0 then [[{ type := 9, parse_err := 0, tp_flags := 0 }]] else [[]] }

/-- A run in which setup succeeds and no record ever arrives. -/
def no_event_env : open_tp_env :=
  { perf_evlist__new := true, perf_evsel__newtp := true, perf_evlist__create_maps := 0,
    perf_evlist__open := 0, perf_evlist__mmap := 0, flags := 65536,
    rounds := fun _ => [[]] }

/-! ## perf_evsel__test_field -/

/-- The members of `struct format_field` that `perf_evsel__test_field` reads. -/
structure format_field where
  flags : Nat
  size : Int

/-- The function `perf_evsel__test_field`, lines 1211-1237.  `field` is what
`perf_evsel__field(evsel, name)` returns, `none` standing for NULL, and
`FIELD_IS_SIGNED` is the flag bit of that name, an enumerator of
`event-parse.h`. -/
def perf_evsel__test_field (FIELD_IS_SIGNED : Nat) (field : Option format_field)
    (size : Int) (should_be_signed : Bool) : Int :=
  let ret : Int := 0
  match field with
  | none => -1
  | some field =>
    let is_signed : Int := if (field.flags ||| FIELD_IS_SIGNED) ≠ 0 then 1 else 0
    let ret := if should_be_signed = true ∧ is_signed = 0 then -1 else ret
    let ret := if field.size ≠ size then -1 else ret
    ret

/-! ## Test selection: perf_test__matches, __cmd_test, perf_test__list -/

/-- The `desc` members of the table `tests`, lines 1404-1461, in order up to
the terminating entry whose `func` is NULL; the x86 entry is present. -/
def tests : List String :=
  [ "vmlinux symtab matches kallsyms",
    "detect open syscall event",
    "detect open syscall event on all cpus",
    "read samples using the mmap interface",
    "parse events tests",
    "x86 rdpmc test",
    "Validate PERF_RECORD_* events & perf_sample fields",
    "Test perf pmu format parsing",
    "Test dso data interface",
    "roundtrip evsel->name check",
    "Check parsing of sched tracepoints fields",
    "Generate and check syscalls:sys_enter_open event fields" ]

/-- The C library predicate `isspace` in the C locale: space, and the control
characters from horizontal tab (9) to carriage return (13). -/
def isspace (c : Char) : Bool := c.toNat = 32 || (9 ≤ c.toNat && c.toNat ≤ 13)

/-- The C library predicate `isdigit`. -/
def isdigit (c : Char) : Bool := 48 ≤ c.toNat && c.toNat ≤ 57

/-- The number a sequence of decimal digits denotes; 0 for the empty one. -/
def decimal_value (digits : List Char) : Nat :=
  digits.foldl (fun acc c => 10 * acc + (c.toNat - 48)) 0

/-- The subject sequence of `strtoul` after the white space: an optional sign
and what follows it. -/
def strip_sign : List Char → Bool × List Char
  | '-' :: rest => (true, rest)
  | '+' :: rest => (false, rest)
  | s => (false, s)

/-- The C library call `strtoul(s, &endp, 10)` with a 64-bit `unsigned long`, as
ISO C specifies it: white space is skipped, an optional sign and the longest run
of digits are read; the pair is the value returned and the characters `endp`
points at.  Without digits the value is 0 and `endp` is `s`; a value that does
not fit is returned as `ULONG_MAX`; a minus sign negates in `unsigned long`. -/
def strtoul (s : List Char) : Nat × List Char :=
  let signed := strip_sign (s.dropWhile isspace)
  let digits := signed.2.takeWhile isdigit
  let endp := signed.2.dropWhile isdigit
  if digits = [] then (0, s)
  else
    let value := decimal_value digits
    if U64 ≤ value then (U64 - 1, endp)
    else if signed.1 = true then ((U64 - value) % U64, endp)
    else (value, endp)

/-- Conversion of an `unsigned long` to `long`. -/
def wrap_long (z : Int) : Int := (z + 2 ^ 63) % 2 ^ 64 - 2 ^ 63

/-- The C library call `strstr(haystack, needle) != NULL`: the needle occurs in
the haystack as a run of consecutive characters. -/
def strstr (haystack needle : List Char) : Bool := decide (needle <:+: haystack)

/-- The member `tests[curr].desc`, for `curr` an index of the table. -/
def tests_desc (curr : Nat) : String := tests.getD curr ""

/-- The `for` loop of `perf_test__matches`, lines 1470-1482, and the
`return false` after it. -/
def matches_loop (curr : Nat) : List String → Bool
  | [] => false
  | arg :: rest =>
    let parsed := strtoul arg.toList
    let nr : Int := wrap_long parsed.1
    if parsed.2 = [] then
      if nr = wrap_int (curr + 1) then true else matches_loop curr rest
    else if strstr (tests_desc curr).toList arg.toList = true then true
    else matches_loop curr rest

/-- The function `perf_test__matches`, lines 1463-1485; `argc` is the length of
`argv`. -/
def perf_test__matches (curr : Nat) (argv : List String) : Bool :=
  if argv.length = 0 then true else matches_loop curr argv

/-- The `while (tests[i].func)` loop of `__cmd_test`, lines 1491-1502, on the
entries from index `i` on: the list of the lines printed by
`pr_info("%2d: %s:", i, tests[curr].desc)`, as number and description. -/
def cmd_test_loop (argv : List String) : List String → Nat → List (Nat × String)
  | [], _ => []
  | desc :: rest, i =>
    let curr := i
    let i := i + 1
    if perf_test__matches curr argv = false then cmd_test_loop argv rest i
    else (i, desc) :: cmd_test_loop argv rest i

/-- The lines `__cmd_test` prints, lines 1487-1505. -/
def __cmd_test (argv : List String) : List (Nat × String) := cmd_test_loop argv tests 0

/-- The `while (tests[i].func)` loop of `perf_test__list`, lines 1511-1518. -/
def test_list_loop (argv : List String) : List String → Nat → List (Nat × String)
  | [], _ => []
  | desc :: rest, i =>
    let i := i + 1
    if argv.length > 1 ∧ strstr desc.toList (argv.getD 1 "").toList = false then
      test_list_loop argv rest i
    else (i, desc) :: test_list_loop argv rest i

/-- The lines `perf_test__list` prints, lines 1507-1521; `argv[0]` is `list`. -/
def perf_test__list (argv : List String) : List (Nat × String) := test_list_loop argv tests 0

/-- The argument is not a test number for `perf_test__matches`: after
`strtoul(arg, &end, 10)` the test `*end == 0` of line 1474 fails. -/
def non_numeric (arg : String) : Prop := (strtoul arg.toList).2 ≠ []

instance (arg : String) : Decidable (non_numeric arg) := by
  unfold non_numeric; infer_instance

/-! ## test__PERF_RECORD -/

/-- Modelled from the spec: the record type tag MMAP of the record header
(section 3), an enumerator of `linux/perf_event.h`, which is not among the
sources. -/
def PERF_RECORD_MMAP : Nat := 1

/-- Modelled from the spec: the record type tag COMM (section 3), an enumerator
of `linux/perf_event.h`. -/
def PERF_RECORD_COMM : Nat := 3

/-- Modelled from the spec: the record type tag EXIT (section 3), an enumerator
of `linux/perf_event.h`. -/
def PERF_RECORD_EXIT : Nat := 4

/-- Modelled from the spec: the record type tag FORK (section 3), an enumerator
of `linux/perf_event.h`. -/
def PERF_RECORD_FORK : Nat := 7

/-- Modelled from the spec: the number of record type tags, the enumerator
`PERF_RECORD_MAX` of `linux/perf_event.h` that follows SAMPLE. -/
def PERF_RECORD_MAX : Nat := 10

/-- One record handed out by `perf_evlist__mmap_read` in `test__PERF_RECORD`,
with what the test reads from it: `type` is `event->header.type`, `parse_err`
the return value of `perf_evlist__parse_sample`, `time`, `cpu`, `pid` and `tid`
the members of the `sample` it fills in, `comm_pid` and `comm_tid` the members
`event->comm.pid` and `event->comm.tid`, `comm` the string `event->comm.comm`
and `filename` the string `event->mmap.filename`. -/
structure perf_record where
  type : Nat
  parse_err : Int
  time : Nat
  cpu : Nat
  pid : Nat
  tid : Nat
  comm_pid : Nat
  comm_tid : Nat
  comm : String
  filename : String
  deriving DecidableEq

/-- What the external calls of `test__PERF_RECORD` return.  `perf_evlist__new`
is `true` when the pointer is not NULL, `sched__get_first_possible_cpu` is the
value that call returns, `workload_pid` is `evlist->workload.pid`, and
`rounds n` lists, for the pass number `n` of the outer `while (1)` loop, the
records each of the `nr_mmaps` mappings hands out before
`perf_evlist__mmap_read` returns NULL. -/
structure perf_record_env where
  perf_evlist__new : Bool
  perf_evlist__add_default : Int
  perf_evlist__create_maps : Int
  perf_evlist__prepare_workload : Int
  sched__get_first_possible_cpu : Int
  sched_setaffinity : Int
  perf_evlist__open : Int
  perf_evlist__mmap : Int
  workload_pid : Int
  rounds : Nat → List (List perf_record)

/-- The variables of `test__PERF_RECORD` that the read loop changes. -/
structure record_state where
  prev_time : Nat
  found_cmd_mmap : Bool
  found_libc_mmap : Bool
  found_vdso_mmap : Bool
  found_ld_mmap : Bool
  err : Int
  errs : Int
  total_events : Int
  nr_events : Nat → Int

/-- The statement `if (cond) ++errs;` on the `int errs`. -/
def count_error (cond : Prop) [Decidable cond] (errs : Int) : Int :=
  if cond then wrap_int (errs + 1) else errs

/-- The characters after the last occurrence of `c`: `strrchr(s, c) + 1`, with
`none` when `strrchr` returns NULL. -/
def strrchr_tail (c : Char) : List Char → Option (List Char)
  | [] => none
  | x :: rest =>
    match strrchr_tail c rest with
    | some tail => some tail
    | none => if x = c then some rest else none

/-- The return statement `return (err < 0 || errs > 0) ? -1 : 0;`. -/
def record_result (err errs : Int) : Int :=
  if err < 0 ∨ errs > 0 then -1 else 0

/-- How the processing of a record leaves the loops: by `goto out_err`, by
`goto found_exit`, or by going on to the next record. -/
inductive record_exit where
  | out_err (st : record_state)
  | found_exit (st : record_state)
  | next (st : record_state)

/-- The `case PERF_RECORD_MMAP` of the switch, lines 848-859. -/
def note_mmap (filename : String) (st : record_state) : record_state :=
  match strrchr_tail '/' filename.toList with
  | some bname =>
    { st with
      found_cmd_mmap :=
        if st.found_cmd_mmap = false then decide (bname = "sleep".toList)
        else st.found_cmd_mmap,
      found_libc_mmap :=
        if st.found_libc_mmap = false then decide (bname.take 4 = "libc".toList)
        else st.found_libc_mmap,
      found_ld_mmap :=
        if st.found_ld_mmap = false then decide (bname.take 2 = "ld".toList)
        else st.found_ld_mmap }
  | none =>
    if st.found_vdso_mmap = false then
      { st with found_vdso_mmap := decide (filename = "[vdso]") }
    else st

/-- The checks of lines 797-837 on a parsed record: the value of `errs` after
them, `prev_time` being the time of the record read before. -/
def sample_errs (cpu : Nat) (wpid : Int) (prev_time : Nat) (errs : Int)
    (event : perf_record) : Int :=
  let type := event.type
  let errs := count_error (prev_time > event.time) errs
  let errs := count_error (event.cpu ≠ cpu) errs
  let errs := count_error (wrap_int event.pid ≠ wpid) errs
  let errs := count_error (wrap_int event.tid ≠ wpid) errs
  let errs := count_error
    ((type = PERF_RECORD_COMM ∨ type = PERF_RECORD_MMAP ∨ type = PERF_RECORD_FORK ∨
      type = PERF_RECORD_EXIT) ∧ wrap_int event.comm_pid ≠ wpid) errs
  let errs := count_error
    ((type = PERF_RECORD_COMM ∨ type = PERF_RECORD_MMAP) ∧
      event.comm_pid ≠ event.comm_tid) errs
  errs

/-- The body of the inner `while` loop, lines 777-868, for one record; `cpu`
is the pinned cpu and `wpid` is `evlist->workload.pid`; the checks of lines
797-837 are `sample_errs`. -/
def read_record (cpu : Nat) (wpid : Int) (st : record_state) (event : perf_record) :
    record_exit :=
  let type := event.type
  let total_events := wrap_int (st.total_events + 1)
  let nr_events :=
    if type < PERF_RECORD_MAX then
      Function.update st.nr_events type (wrap_int (st.nr_events type + 1))
    else st.nr_events
  let err := event.parse_err
  let st := { st with total_events := total_events, nr_events := nr_events, err := err }
  if err < 0 then record_exit.out_err st
  else
    let errs := sample_errs cpu wpid st.prev_time st.errs event
    let prev_time := event.time
    let st := { st with prev_time := prev_time, errs := errs }
    if type = PERF_RECORD_COMM then
      record_exit.next { st with errs := count_error (event.comm ≠ "sleep") st.errs }
    else if type = PERF_RECORD_EXIT then record_exit.found_exit st
    else if type = PERF_RECORD_MMAP then record_exit.next (note_mmap event.filename st)
    else if type = PERF_RECORD_SAMPLE then record_exit.next st
    else record_exit.next { st with errs := wrap_int (st.errs + 1) }

/-- The inner `while` loop of lines 776-869 on one mapping. -/
def read_events (cpu : Nat) (wpid : Int) : List perf_record → record_state → record_exit
  | [], st => record_exit.next st
  | event :: rest, st =>
    match read_record cpu wpid st event with
    | record_exit.next st => read_events cpu wpid rest st
    | other => other

/-- The `for` loop over the mappings, lines 773-870. -/
def read_mmaps (cpu : Nat) (wpid : Int) :
    List (List perf_record) → record_state → record_exit
  | [], st => record_exit.next st
  | events :: rest, st =>
    match read_events cpu wpid events st with
    | record_exit.next st => read_mmaps cpu wpid rest st
    | other => other

/-- The code from the label `found_exit` to the return, lines 887-924. -/
def found_exit_result (st : record_state) : Int :=
  let errs := count_error (st.nr_events PERF_RECORD_COMM > 1) st.errs
  let errs := count_error (st.nr_events PERF_RECORD_COMM = 0) errs
  let errs := count_error (st.found_cmd_mmap = false) errs
  let errs := count_error (st.found_libc_mmap = false) errs
  let errs := count_error (st.found_ld_mmap = false) errs
  let errs := count_error (st.found_vdso_mmap = false) errs
  record_result st.err errs

/-- The `while (1)` loop of lines 770-885 and what follows it; `left` is the
number of passes that `++wakeups > 5` still allows, 6 on entry. -/
def wakeup_loop (cpu : Nat) (wpid : Int) (rounds : Nat → List (List perf_record)) :
    Nat → Nat → record_state → Int
  | 0, _, st => found_exit_result st
  | left + 1, wakeups, st =>
    match read_mmaps cpu wpid (rounds wakeups) st with
    | record_exit.out_err st => record_result st.err st.errs
    | record_exit.found_exit st => found_exit_result st
    | record_exit.next st =>
      if wakeups + 1 > 5 then found_exit_result st
      else wakeup_loop cpu wpid rounds left (wakeups + 1) st

/-- The pinned cpu: `cpu = err` after `sched__get_first_possible_cpu`, an `int`
stored in a `u32`. -/
def pinned_cpu (env : perf_record_env) : Nat :=
  (env.sched__get_first_possible_cpu % 2 ^ 32).toNat

/-- The function `test__PERF_RECORD`, lines 645-925. -/
def test__PERF_RECORD (env : perf_record_env) : Int :=
  let err : Int := -1
  let errs : Int := 0
  if env.perf_evlist__new = false then record_result err errs
  else
    let err := env.perf_evlist__add_default
    if err < 0 then record_result err errs
    else
      let err := env.perf_evlist__create_maps
      if err < 0 then record_result err errs
      else
        let err := env.perf_evlist__prepare_workload
        if err < 0 then record_result err errs
        else
          let err := env.sched__get_first_possible_cpu
          if err < 0 then record_result err errs
          else
            let cpu := pinned_cpu env
            if env.sched_setaffinity < 0 then record_result err errs
            else
              let err := env.perf_evlist__open
              if err < 0 then record_result err errs
              else
                let err := env.perf_evlist__mmap
                if err < 0 then record_result err errs
                else
                  wakeup_loop cpu env.workload_pid env.rounds 6 0
                    { prev_time := 0, found_cmd_mmap := false, found_libc_mmap := false,
                      found_vdso_mmap := false, found_ld_mmap := false, err := err,
                      errs := errs, total_events := 0, nr_events := fun _ => 0 }

/-- The records the mappings hand out during the six passes of the outer loop,
in the order in which they are read. -/
def all_records (env : perf_record_env) : List perf_record :=
  ((List.range 6).map (fun n => (env.rounds n).flatten)).flatten

/-- The records that are read: those up to and including the first one at
which reading stops, a record that fails to parse or an EXIT record. -/
def records_read : List perf_record → List perf_record
  | [] => []
  | event :: rest =>
    if event.parse_err < 0 ∨ event.type = PERF_RECORD_EXIT then [event]
    else event :: records_read rest

/-- Some record of `read`, a list of records read one after the other, breaks a
check: it fails to parse, or its cpu, pid or tid is not the expected one, or
its time is smaller than `prev`, the time of the record read before it. -/
def has_violation (cpu : Nat) (wpid : Int) : Nat → List perf_record → Prop
  | _, [] => False
  | prev, event :: rest =>
    event.parse_err < 0 ∨ event.time < prev ∨ event.cpu ≠ cpu ∨
      wrap_int event.pid ≠ wpid ∨ wrap_int event.tid ≠ wpid ∨
      has_violation cpu wpid event.time rest

/-- What is known after a scan that started with `errs0` errors and read the
records `read`. -/
def exit_ok (cpu : Nat) (wpid : Int) (prev : Nat) (errs0 : Int) (read : List perf_record) :
    record_exit → Prop
  | record_exit.out_err st => st.err < 0
  | record_exit.found_exit st =>
    errs0 ≤ st.errs ∧ st.errs ≤ errs0 + 7 * read.length ∧
      (has_violation cpu wpid prev read → errs0 + 1 ≤ st.errs)
  | record_exit.next st =>
    errs0 ≤ st.errs ∧ st.errs ≤ errs0 + 7 * read.length ∧
      (has_violation cpu wpid prev read → errs0 + 1 ≤ st.errs)

/-- The end of `test__PERF_RECORD` after the scan of all six passes. -/
def conclude : record_exit → Int
  | record_exit.out_err st => record_result st.err st.errs
  | record_exit.found_exit st => found_exit_result st
  | record_exit.next st => found_exit_result st

/-- Every setup call of `test__PERF_RECORD` succeeds. -/
def perf_record_env.setup_ok (env : perf_record_env) : Prop :=
  env.perf_evlist__new = true ∧ 0 ≤ env.perf_evlist__add_default ∧
    0 ≤ env.perf_evlist__create_maps ∧ 0 ≤ env.perf_evlist__prepare_workload ∧
    0 ≤ env.sched__get_first_possible_cpu ∧ 0 ≤ env.sched_setaffinity ∧
    0 ≤ env.perf_evlist__open ∧ 0 ≤ env.perf_evlist__mmap

instance (env : perf_record_env) : Decidable env.setup_ok := by
  unfold perf_record_env.setup_ok; infer_instance

/-- A record of the workload `sleep` with pid 1234 pinned on cpu 2. -/
def sleep_record (type time cpu : Nat) (filename : String) : perf_record :=
  { type := type, parse_err := 0, time := time, cpu := cpu, pid := 1234, tid := 1234,
    comm_pid := 1234, comm_tid := 1234, comm := "sleep", filename := filename }

/-- A run of the workload `sleep` (pid 1234, cpu 2) with a COMM record, the
four MMAP records, a SAMPLE and an EXIT record; the SAMPLE is said to come from
cpu `sample_cpu`. -/
def sleep_env (sample_cpu : Nat) : perf_record_env :=
  { perf_evlist__new := true, perf_evlist__add_default := 0, perf_evlist__create_maps := 0,
    perf_evlist__prepare_workload := 0, sched__get_first_possible_cpu := 2,
    sched_setaffinity := 0, perf_evlist__open := 0, perf_evlist__mmap := 0,
    workload_pid := 1234,
    rounds := fun n =>
      if n = 0 then
        [[sleep_record 3 10 2 "", sleep_record 1 11 2 "/bin/sleep",
          sleep_record 1 12 2 "/lib/libc-2.15.so", sleep_record 1 13 2 "/lib/ld-2.15.so",
          sleep_record 1 14 2 "[vdso]"]]
      else if n = 1 then [[sleep_record 9 15 sample_cpu "", sleep_record 4 16 2 ""]]
      else [[]] }

/-- Some record of `read`, the records read in order by `test__PERF_RECORD`,
fails to parse or has a `sample.cpu` other than the pinned cpu, a `sample.pid`
or `sample.tid` other than the workload pid, or a `sample.time` smaller than
that of the record read just before it. -/
def breaks_a_check (cpu : Nat) (wpid : Int) (read : List perf_record) : Prop :=
  (∃ event ∈ read, event.parse_err < 0 ∨ event.cpu ≠ cpu ∨ wrap_int event.pid ≠ wpid ∨
      wrap_int event.tid ≠ wpid) ∨
    (∃ i before event, read[i]? = some before ∧ read[i + 1]? = some event ∧
      event.time < before.time)

/-! ## The retry loop -/

theorem loop_body_seq (l : Locals) (o : Pass) : (loop_body l o).seq = o.lock0 % U32 := rfl

theorem read_loop_succ (fuel : Nat) (obs : Nat → Pass) (i : Nat) (l : Locals) :
    read_loop (fuel + 1) obs i l
      = if (obs i).agrees then some (loop_body l (obs i))
        else read_loop fuel obs (i + 1) (loop_body l (obs i)) := by
  by_cases h : (obs i).agrees
  · have h1 : (obs i).lock1 % U32 = (obs i).lock0 % U32 := h
    simp [read_loop, loop_body_seq, h, h1]
  · have h1 : ¬ (obs i).lock1 % U32 = (obs i).lock0 % U32 := h
    simp [read_loop, loop_body_seq, h, h1]

/-- The code after the loop uses no local that the last pass did not assign. -/
theorem scale_and_return_loop_body (l : Locals) (o : Pass) :
    scale_and_return (loop_body l o) = snapshot_result o := by
  unfold snapshot_result scale_and_return loop_body
  by_cases h : o.time_enabled % U64 = o.time_running % U64
  · simp [h]
  · simp [h]

/-- The loop ends in the first pass whose two loads of `lock` agree. -/
theorem read_loop_first_agree (obs : Nat → Pass) :
    ∀ (k i : Nat) (l : Locals) (fuel : Nat),
      (∀ j, j < k → ¬ (obs (i + j)).agrees) → (obs (i + k)).agrees → k < fuel →
      ∃ l0, read_loop fuel obs i l = some (loop_body l0 (obs (i + k))) := by
  intro k
  induction k with
  | zero =>
    intro i l fuel _ hk hf
    obtain ⟨f, rfl⟩ : ∃ f, fuel = f + 1 := ⟨fuel - 1, by omega⟩
    refine ⟨l, ?_⟩
    rw [read_loop_succ]
    simp only [Nat.add_zero] at hk ⊢
    simp [hk]
  | succ k ih =>
    intro i l fuel hlt hk hf
    obtain ⟨f, rfl⟩ : ∃ f, fuel = f + 1 := ⟨fuel - 1, by omega⟩
    have h0 : ¬ (obs i).agrees := by simpa using hlt 0 (Nat.succ_pos k)
    have hstep : ∀ j, j < k → ¬ (obs (i + 1 + j)).agrees := by
      intro j hj
      have := hlt (j + 1) (by omega)
      rwa [show i + (j + 1) = i + 1 + j by omega] at this
    have hk1 : (obs (i + 1 + k)).agrees := by
      rwa [show i + (k + 1) = i + 1 + k by omega] at hk
    obtain ⟨l0, hl0⟩ := ih (i + 1) (loop_body l (obs i)) f hstep hk1 (by omega)
    refine ⟨l0, ?_⟩
    rw [read_loop_succ, if_neg h0, hl0, show i + (k + 1) = i + 1 + k by omega]

/-- While no pass agrees the loop keeps going. -/
theorem read_loop_none (obs : Nat → Pass) :
    ∀ (fuel i : Nat) (l : Locals),
      (∀ j, j < fuel → ¬ (obs (i + j)).agrees) → read_loop fuel obs i l = none := by
  intro fuel
  induction fuel with
  | zero => intro i l _; rfl
  | succ f ih =>
    intro i l h
    have h0 : ¬ (obs i).agrees := by simpa using h 0 (Nat.succ_pos f)
    rw [read_loop_succ, if_neg h0]
    apply ih
    intro j hj
    have := h (j + 1) (by omega)
    rwa [show i + (j + 1) = i + 1 + j by omega] at this

/-- A loop that ended did so in the first agreeing pass. -/
theorem read_loop_some (obs : Nat → Pass) :
    ∀ (fuel i : Nat) (l l1 : Locals), read_loop fuel obs i l = some l1 →
      ∃ k, k < fuel ∧ (∀ j, j < k → ¬ (obs (i + j)).agrees) ∧ (obs (i + k)).agrees ∧
        ∃ l0, l1 = loop_body l0 (obs (i + k)) := by
  intro fuel
  induction fuel with
  | zero => intro i l l1 h; simp [read_loop] at h
  | succ f ih =>
    intro i l l1 h
    rw [read_loop_succ] at h
    by_cases h0 : (obs i).agrees
    · rw [if_pos h0] at h
      refine ⟨0, Nat.succ_pos f, ?_, by simpa using h0, l, ?_⟩
      · intro j hj; omega
      · simpa using (Option.some.inj h).symm
    · rw [if_neg h0] at h
      obtain ⟨k, hk, hlt, hag, l0, hl0⟩ := ih (i + 1) _ l1 h
      refine ⟨k + 1, by omega, ?_, ?_, l0, ?_⟩
      · intro j hj
        rcases Nat.eq_zero_or_pos j with rfl | hpos
        · simpa using h0
        · have := hlt (j - 1) (by omega)
          rwa [show i + 1 + (j - 1) = i + j by omega] at this
      · rwa [show i + (k + 1) = i + 1 + k by omega]
      · rw [hl0, show i + (k + 1) = i + 1 + k by omega]

/-- The result of `mmap_read_self` when pass `k` is the first agreeing one. -/
theorem mmap_read_self_first_agree (obs : Nat → Pass) (k fuel : Nat)
    (hlt : ∀ j, j < k → ¬ (obs j).agrees) (hk : (obs k).agrees) (hf : k < fuel) :
    mmap_read_self fuel obs = snapshot_result (obs k) := by
  obtain ⟨l0, hl0⟩ := read_loop_first_agree obs k 0 Locals.entry fuel
    (by simpa using hlt) (by simpa using hk) hf
  unfold mmap_read_self
  rw [hl0]
  simpa using scale_and_return_loop_body l0 (obs k)

theorem snapshot_result_ne_still_looping (o : Pass) :
    snapshot_result o ≠ Outcome.still_looping := by
  unfold snapshot_result scale_and_return
  dsimp only
  split_ifs <;> simp

/-! ## Which pass is accepted -/

/-- C2, the claim as stated fails: a pass that observes the odd lock value 1
at both ends is accepted at once, and its `offset` 7 is returned; a retry would
have returned the 9 of the next, even, pass. -/
theorem odd_lock_pass_is_accepted :
    (odd_then_even 0).lock0 % U32 % 2 = 1 ∧
      mmap_read_self 1 odd_then_even = Outcome.returned 7 ∧
      snapshot_result (odd_then_even 1) = Outcome.returned 9 := by
  refine ⟨by decide, by decide, by decide⟩

/-- A call that ended did so in the first pass whose two loads of `lock` are
equal. -/
theorem mmap_read_self_ended_in_first_agreeing_pass (fuel : Nat) (obs : Nat → Pass)
    (hend : mmap_read_self fuel obs ≠ Outcome.still_looping) :
    ∃ k, k < fuel ∧ (∀ j, j < k → (obs j).lock1 % U32 ≠ (obs j).lock0 % U32) ∧
      (obs k).lock1 % U32 = (obs k).lock0 % U32 ∧
      mmap_read_self fuel obs = snapshot_result (obs k) := by
  cases hloop : read_loop fuel obs 0 Locals.entry with
  | none => exact absurd (by simp [mmap_read_self, hloop]) hend
  | some l1 =>
    obtain ⟨k, hk, hlt, hag, -⟩ := read_loop_some obs fuel 0 Locals.entry l1 hloop
    have hlt0 : ∀ j, j < k → ¬ (obs j).agrees := by
      intro j hj; simpa using hlt j hj
    have hag0 : (obs k).agrees := by simpa using hag
    exact ⟨k, hk, hlt0, hag0, mmap_read_self_first_agree obs k fuel hlt0 hag0 hk⟩

/-- C2, amended: `mmap_read_self` ends within `fuel` passes exactly when one of
them has equal first and last loads of `lock`, and it then returns what the
first such pass read, every earlier pass having been retried.  No condition is
put on the parity of the lock value: a pass that observes an odd lock at both
ends is accepted. -/
theorem mmap_read_self_accepts_first_agreeing_pass (fuel : Nat) (obs : Nat → Pass) :
    (mmap_read_self fuel obs ≠ Outcome.still_looping ↔
        ∃ k, k < fuel ∧ (obs k).lock1 % U32 = (obs k).lock0 % U32) ∧
      ∀ k, k < fuel → (∀ j, j < k → (obs j).lock1 % U32 ≠ (obs j).lock0 % U32) →
        (obs k).lock1 % U32 = (obs k).lock0 % U32 →
        mmap_read_self fuel obs = snapshot_result (obs k) := by
  refine ⟨⟨?_, ?_⟩, ?_⟩
  · intro hend
    obtain ⟨k, hk, -, hag, -⟩ := mmap_read_self_ended_in_first_agreeing_pass fuel obs hend
    exact ⟨k, hk, hag⟩
  · intro hex
    have hex' : ∃ k, k < fuel ∧ (obs k).agrees := hex
    classical
    have hkf := (Nat.find_spec hex').1
    have hka := (Nat.find_spec hex').2
    have hlt : ∀ i, i < Nat.find hex' → ¬ (obs i).agrees := by
      intro i hi hia
      exact Nat.find_min hex' hi ⟨lt_trans hi hkf, hia⟩
    rw [mmap_read_self_first_agree obs (Nat.find hex') fuel hlt hka hkf]
    exact snapshot_result_ne_still_looping _
  · intro k hk hdis hag
    exact mmap_read_self_first_agree obs k fuel hdis hag hk

theorem mmap_read_self_accepts_first_agreeing_pass_witness :
    (odd_then_even 0).lock0 % U32 % 2 = 1 ∧
      mmap_read_self 2 odd_then_even ≠ Outcome.still_looping ∧
      mmap_read_self 2 odd_then_even = snapshot_result (odd_then_even 0) :=
  ⟨by decide,
    (mmap_read_self_accepts_first_agreeing_pass 2 odd_then_even).1.mpr ⟨0, by decide, by decide⟩,
    (mmap_read_self_accepts_first_agreeing_pass 2 odd_then_even).2 0 (by decide) (by decide)
      (by decide)⟩

/-- C3: when the lock re-read at the end of a pass differs from the one read at
its start the pass is retried, and the outcome is a function of the final pass
alone (the first one whose lock reads agree): it is what a call with that
single pass and fresh locals computes, so two runs whose discarded passes
differ but whose final passes coincide end alike. -/
theorem mmap_read_self_depends_only_on_final_pass (obs obs' : Nat → Pass)
    (k k' fuel fuel' : Nat)
    (hdis : ∀ j, j < k → (obs j).lock1 % U32 ≠ (obs j).lock0 % U32)
    (hfin : (obs k).lock1 % U32 = (obs k).lock0 % U32)
    (hdis' : ∀ j, j < k' → (obs' j).lock1 % U32 ≠ (obs' j).lock0 % U32)
    (hsame : obs' k' = obs k) (hf : k < fuel) (hf' : k' < fuel') :
    mmap_read_self fuel obs = snapshot_result (obs k) ∧
      mmap_read_self fuel' obs' = mmap_read_self fuel obs := by
  have h1 : mmap_read_self fuel obs = snapshot_result (obs k) :=
    mmap_read_self_first_agree obs k fuel hdis hfin hf
  have hfin' : (obs' k').agrees := by
    unfold Pass.agrees; rw [hsame]; exact hfin
  have h2 : mmap_read_self fuel' obs' = snapshot_result (obs' k') :=
    mmap_read_self_first_agree obs' k' fuel' hdis' hfin' hf'
  exact ⟨h1, by rw [h1, h2, hsame]⟩

theorem mmap_read_self_depends_only_on_final_pass_witness :
    mmap_read_self 2 (torn_then_settled 8) = snapshot_result (torn_then_settled 8 1) ∧
      mmap_read_self 1 (fun _ => settled_pass) = mmap_read_self 2 (torn_then_settled 8) :=
  mmap_read_self_depends_only_on_final_pass (torn_then_settled 8) (fun _ => settled_pass)
    1 0 2 1 (by decide) (by decide) (by decide) rfl (by decide) (by decide)

/-! ## No bound on the number of passes -/

/-- C9, the claim as stated fails: against a producer whose lock changes inside
every read window there is no number of passes after which `mmap_read_self`
has stopped, with an error or otherwise. -/
theorem busy_writer_never_stops :
    ¬ ∃ fuel, mmap_read_self fuel busy_writer ≠ Outcome.still_looping := by
  rintro ⟨fuel, h⟩
  apply h
  have hno : ∀ j, j < fuel → ¬ (busy_writer (0 + j)).agrees := by
    intro j _
    unfold Pass.agrees busy_writer U32
    simp only [Nat.zero_add]
    omega
  simp [mmap_read_self, read_loop_none busy_writer fuel 0 Locals.entry hno]

/-- C9, amended: the loop has no iteration cap and no error exit; after any
number `fuel` of passes it is still running exactly when the lock changed
inside every one of those passes. -/
theorem mmap_read_self_still_looping_iff (fuel : Nat) (obs : Nat → Pass) :
    mmap_read_self fuel obs = Outcome.still_looping ↔
      ∀ j, j < fuel → (obs j).lock1 % U32 ≠ (obs j).lock0 % U32 := by
  constructor
  · intro h j hj hag
    by_cases hex : ∃ k, k < fuel ∧ (obs k).agrees
    · classical
      have hkf := (Nat.find_spec hex).1
      have hka := (Nat.find_spec hex).2
      have hlt : ∀ i, i < Nat.find hex → ¬ (obs i).agrees := by
        intro i hi hia
        exact Nat.find_min hex hi ⟨lt_trans hi hkf, hia⟩
      have := mmap_read_self_first_agree obs (Nat.find hex) fuel hlt hka hkf
      rw [h] at this
      exact snapshot_result_ne_still_looping _ this.symm
    · exact hex ⟨j, hj, hag⟩
  · intro h
    have hno : ∀ j, j < fuel → ¬ (obs (0 + j)).agrees := by
      intro j hj
      simpa [Pass.agrees] using h j hj
    simp [mmap_read_self, read_loop_none obs fuel 0 Locals.entry hno]

/-! ## The value returned -/

theorem mmap_read_self_accepted (obs : Nat → Pass) (k fuel : Nat)
    (hacc : accepted_at obs k) (hf : k < fuel) :
    mmap_read_self fuel obs = snapshot_result (obs k) :=
  mmap_read_self_first_agree obs k fuel hacc.1 hacc.2 hf

theorem low_mask_of_le_31 (s : Nat) (hs : s ≤ 31) : low_mask s = 1 <<< s - 1 := by
  interval_cases s <;> decide

/-- Up to `time_shift == 31` the code computes the transform as specified. -/
theorem mmap_delta_eq_spec_delta_of_le_31 (ts time_mult time_shift time_offset : Nat)
    (hs : time_shift ≤ 31) :
    mmap_delta ts time_mult time_shift time_offset
      = spec_delta ts time_mult time_shift time_offset := by
  unfold mmap_delta spec_delta shr_u64
  rw [low_mask_of_le_31 time_shift hs, Nat.mod_eq_of_lt (by omega : time_shift < 64)]

theorem snapshot_result_eq_reference (o : Pass) (h : o.in_range)
    (hshift31 : o.time_shift ≤ 31) :
    snapshot_result o = reference_read_self o := by
  obtain ⟨-, -, hidx, hmult, hshift, hen, hrun, hoff, hofs, htsc, hpmc⟩ := h
  unfold snapshot_result scale_and_return loop_body reference_read_self rescale
  simp only [Nat.mod_eq_of_lt hidx, Nat.mod_eq_of_lt hmult, Nat.mod_eq_of_lt hshift,
    Nat.mod_eq_of_lt hen, Nat.mod_eq_of_lt hrun, Nat.mod_eq_of_lt hoff,
    Nat.mod_eq_of_lt hofs, Nat.mod_eq_of_lt htsc, Nat.mod_eq_of_lt hpmc]
  have hdelta := mmap_delta_eq_spec_delta_of_le_31 o.tsc o.time_mult o.time_shift
    o.time_offset hshift31
  by_cases he : o.time_enabled = o.time_running
  · by_cases hi : o.index = 0
    · simp [he, hi, Nat.mod_eq_of_lt hofs]
    · simp [he, hi]
  · by_cases hi : o.index = 0
    · simp [he, hi, hdelta, Nat.mod_eq_of_lt hofs]
    · simp [he, hi, hdelta]

/-- Up to `time_shift == 31`, on the accepted snapshot read with in-range
values, `mmap_read_self` equals the reference definition (both sides end in the
divide error when running' is 0). -/
theorem mmap_read_self_eq_reference_of_shift_le_31 (obs : Nat → Pass) (k fuel : Nat)
    (hacc : accepted_at obs k) (hf : k < fuel) (hrange : (obs k).in_range)
    (hshift31 : (obs k).time_shift ≤ 31) :
    mmap_read_self fuel obs = reference_read_self (obs k) := by
  rw [mmap_read_self_accepted obs k fuel hacc hf]
  exact snapshot_result_eq_reference (obs k) hrange hshift31

/-- A torn pass followed by a settled one with `time_shift == 2`: the call
returns what the reference definition gives for the settled pass. -/
theorem mmap_read_self_eq_reference_example :
    mmap_read_self 2 (torn_then_settled 8) = reference_read_self (torn_then_settled 8 1) ∧
      reference_read_self (torn_then_settled 8 1) = Outcome.returned 161 :=
  ⟨mmap_read_self_eq_reference_of_shift_le_31 (torn_then_settled 8) 1 2 (by decide)
    (by decide) (by decide) (by decide), by decide⟩

/-- C4, the code at the failing input: an accepted, in-range snapshot with
time_shift = 32, timestamp 2^32 + 2, time_mult 2^31, times 2 enabled and 1
running, index 0 and offset 1.  `mmap_read_self` returns 2^31 + 2, the
reference definition gives 2^31 + 3: the code's delta lacks the remainder
term. -/
theorem mmap_read_self_wide_shift_differs_from_reference :
    accepted_at (fun _ => wide_shift_pass) 0 ∧ wide_shift_pass.in_range ∧
      mmap_read_self 1 (fun _ => wide_shift_pass) = Outcome.returned 2147483650 ∧
      reference_read_self wide_shift_pass = Outcome.returned 2147483651 := by
  refine ⟨by decide, by decide, by decide, by decide⟩

/-! ## The fixed-point transform -/

/-- C5, the code at the failing input ts = 2^32 + 2, time_mult = 2^31,
time_shift = 32, time_offset = 0: the `int` mask `(1 << 32) - 1` is 0, so the
remainder term is dropped and delta is 2^31, where the specified transform
gives 2^31 + 1. -/
theorem mmap_delta_shift_32_drops_remainder :
    low_mask 32 = 0 ∧ mmap_delta 4294967298 2147483648 32 0 = 2147483648 ∧
      spec_delta 4294967298 2147483648 32 0 = 2147483649 := by
  refine ⟨by decide, by decide, by decide⟩

/-! ## Two reads of a quiescent page -/

/-- C6, the claim as stated fails: over an unmodified page with a register
assigned, two calls between which the counter register advanced from 100 to
250 return 100 and 250. -/
theorem quiescent_page_two_reads_differ :
    mmap_read_self 1 (fun _ => Pass.of_page counting_page 0 (fun _ => 100))
        = Outcome.returned 100 ∧
      mmap_read_self 1 (fun _ => Pass.of_page counting_page 0 (fun _ => 250))
        = Outcome.returned 250 := by
  refine ⟨by decide, by decide⟩

theorem of_page_accepted (pc : perf_event_mmap_page) (tsc : Nat) (pmc : Nat → Nat) :
    accepted_at (fun _ => Pass.of_page pc tsc pmc) 0 :=
  ⟨fun j hj => absurd hj (Nat.not_lt_zero j), rfl⟩

/-- Over a control page that is not modified, two calls end after one pass and
end alike when the hardware registers they read show the same values. -/
theorem quiescent_outcomes_agree (pc : perf_event_mmap_page)
    (tsc1 tsc2 : Nat) (pmc1 pmc2 : Nat → Nat) (fuel1 fuel2 : Nat)
    (hf1 : 0 < fuel1) (hf2 : 0 < fuel2)
    (hpmc : pc.index % U32 ≠ 0 →
      pmc1 (pc.index % U32 - 1) % U64 = pmc2 (pc.index % U32 - 1) % U64)
    (htsc : pc.time_enabled % U64 ≠ pc.time_running % U64 → tsc1 % U64 = tsc2 % U64) :
    mmap_read_self fuel1 (fun _ => Pass.of_page pc tsc1 pmc1)
        = mmap_read_self fuel2 (fun _ => Pass.of_page pc tsc2 pmc2) ∧
      mmap_read_self fuel1 (fun _ => Pass.of_page pc tsc1 pmc1) ≠ Outcome.still_looping := by
  rw [mmap_read_self_accepted _ 0 fuel1 (of_page_accepted pc tsc1 pmc1) hf1,
    mmap_read_self_accepted _ 0 fuel2 (of_page_accepted pc tsc2 pmc2) hf2]
  refine ⟨?_, snapshot_result_ne_still_looping _⟩
  unfold snapshot_result scale_and_return loop_body Pass.of_page
  by_cases he : pc.time_enabled % U64 = pc.time_running % U64
  · by_cases hi : pc.index % U32 = 0
    · simp [he, hi]
    · simp [he, hi, hpmc hi]
  · by_cases hi : pc.index % U32 = 0
    · simp [he, hi, htsc he]
    · simp [he, hi, htsc he, hpmc hi]

/-- A single pass returns a value when the times are equal or the divisor is
not 0. -/
theorem snapshot_result_returns (o : Pass)
    (hdiv : o.time_enabled % U64 ≠ o.time_running % U64 → o.divisor ≠ 0) :
    ∃ v, snapshot_result o = Outcome.returned v := by
  unfold snapshot_result scale_and_return
  by_cases he : o.time_enabled % U64 = o.time_running % U64
  · exact ⟨_, by simp only [loop_body, he, ne_eq, not_true_eq_false, if_false]; rfl⟩
  · have hd := hdiv he
    unfold Pass.divisor Pass.delta at hd
    by_cases hi : o.index % U32 = 0
    · simp only [hi, ne_eq, not_true_eq_false, if_false] at hd
      exact ⟨_, by simp only [loop_body, he, hi, hd, ne_eq, not_true_eq_false,
        not_false_eq_true, if_true, if_false]; rfl⟩
    · simp only [hi, ne_eq, not_false_eq_true, if_true] at hd
      exact ⟨_, by simp only [loop_body, he, hi, hd, ne_eq, not_false_eq_true, if_true,
        if_false]; rfl⟩

/-- C6, amended: over a control page that is not modified, two calls of
`mmap_read_self` both return, and return the same value, provided the hardware
registers they read show the same values in both calls (`rdpmc(index - 1)`
when index != 0, `rdtsc()` when time_enabled != time_running) and, when
time_enabled != time_running, the running time used as divisor is not 0. -/
theorem quiescent_reads_return_same_value (pc : perf_event_mmap_page)
    (tsc1 tsc2 : Nat) (pmc1 pmc2 : Nat → Nat) (fuel1 fuel2 : Nat)
    (hf1 : 0 < fuel1) (hf2 : 0 < fuel2)
    (hpmc : pc.index % U32 ≠ 0 →
      pmc1 (pc.index % U32 - 1) % U64 = pmc2 (pc.index % U32 - 1) % U64)
    (htsc : pc.time_enabled % U64 ≠ pc.time_running % U64 → tsc1 % U64 = tsc2 % U64)
    (hdiv : pc.time_enabled % U64 ≠ pc.time_running % U64 →
      (Pass.of_page pc tsc1 pmc1).divisor ≠ 0) :
    ∃ v, mmap_read_self fuel1 (fun _ => Pass.of_page pc tsc1 pmc1) = Outcome.returned v ∧
      mmap_read_self fuel2 (fun _ => Pass.of_page pc tsc2 pmc2) = Outcome.returned v := by
  obtain ⟨heq, -⟩ :=
    quiescent_outcomes_agree pc tsc1 tsc2 pmc1 pmc2 fuel1 fuel2 hf1 hf2 hpmc htsc
  obtain ⟨v, hv⟩ := snapshot_result_returns (Pass.of_page pc tsc1 pmc1) hdiv
  have h1 : mmap_read_self fuel1 (fun _ => Pass.of_page pc tsc1 pmc1) = Outcome.returned v := by
    rw [mmap_read_self_accepted _ 0 fuel1 (of_page_accepted pc tsc1 pmc1) hf1]
    exact hv
  exact ⟨v, h1, by rw [← heq]; exact h1⟩

theorem quiescent_reads_return_same_value_witness :
    ∃ v,
      mmap_read_self 1
          (fun _ => Pass.of_page multiplexed_page 16 (fun c => if c = 1 then 11 else 0))
        = Outcome.returned v ∧
      mmap_read_self 3
          (fun _ => Pass.of_page multiplexed_page 16 (fun c => if c = 1 then 11 else 77))
        = Outcome.returned v :=
  quiescent_reads_return_same_value multiplexed_page 16 16
    (fun c => if c = 1 then 11 else 0) (fun c => if c = 1 then 11 else 77) 1 3
    (by decide) (by decide) (fun _ => by decide) (fun _ => rfl) (fun _ => by decide)

/-- The value both calls of the witness return. -/
theorem quiescent_reads_example :
    mmap_read_self 1
        (fun _ => Pass.of_page multiplexed_page 16 (fun c => if c = 1 then 11 else 0))
      = Outcome.returned 161 := by
  decide

/-! ## No register assigned -/

/-- C7, the claim as stated fails: with index == 0, offset == 10 and the times
4 enabled, 2 running, the returned value is the scaled 20, neither 0 nor the
raw offset. -/
theorem unassigned_read_is_scaled :
    unassigned_pass.index = 0 ∧
      mmap_read_self 1 (fun _ => unassigned_pass) = Outcome.returned 20 := by
  refine ⟨rfl, by decide⟩

/-- C7, amended: when the accepted snapshot has index == 0, the outcome of
`mmap_read_self` does not depend on any value `rdpmc` returned, in the accepted
pass or in a discarded one (a discarded pass that saw index != 0 does execute
`rdpmc`; what it read is dropped); the call returns the raw offset when
time_enabled == time_running, and when they differ and time_running is not 0
it returns the offset rescaled with enabled' = time_enabled + delta and
running' = time_running. -/
theorem index_zero_read_ignores_rdpmc_and_scales (obs : Nat → Pass) (k fuel : Nat)
    (hacc : accepted_at obs k) (hf : k < fuel) (hidx : (obs k).index % U32 = 0) :
    (∀ pmcs : Nat → Nat → Nat,
        mmap_read_self fuel (fun i => { obs i with pmc := pmcs i })
          = mmap_read_self fuel obs) ∧
      ((obs k).time_enabled % U64 = (obs k).time_running % U64 →
        mmap_read_self fuel obs = Outcome.returned ((obs k).offset % U64)) ∧
      ((obs k).time_enabled % U64 ≠ (obs k).time_running % U64 →
        (obs k).time_running % U64 ≠ 0 →
        mmap_read_self fuel obs = Outcome.returned
          (rescale ((obs k).offset % U64)
            (((obs k).time_enabled % U64 + (obs k).delta) % U64)
            ((obs k).time_running % U64))) := by
  refine ⟨?_, ?_, ?_⟩
  · intro pmcs
    have hacc' : accepted_at (fun i => { obs i with pmc := pmcs i }) k :=
      ⟨fun j hj => hacc.1 j hj, hacc.2⟩
    rw [mmap_read_self_accepted _ k fuel hacc' hf, mmap_read_self_accepted obs k fuel hacc hf]
    unfold snapshot_result scale_and_return loop_body
    simp [hidx]
  · intro he
    rw [mmap_read_self_accepted obs k fuel hacc hf]
    unfold snapshot_result scale_and_return loop_body
    simp [hidx, he]
  · intro he hr
    rw [mmap_read_self_accepted obs k fuel hacc hf]
    unfold snapshot_result scale_and_return loop_body Pass.delta
    simp [hidx, he, hr]

theorem index_zero_read_ignores_rdpmc_and_scales_witness :
    (∀ pmcs : Nat → Nat → Nat,
        mmap_read_self 2 (fun i => { torn_then_unassigned i with pmc := pmcs i })
          = mmap_read_self 2 torn_then_unassigned) ∧
      ((torn_then_unassigned 1).time_enabled % U64
          = (torn_then_unassigned 1).time_running % U64 →
        mmap_read_self 2 torn_then_unassigned
          = Outcome.returned ((torn_then_unassigned 1).offset % U64)) ∧
      ((torn_then_unassigned 1).time_enabled % U64
          ≠ (torn_then_unassigned 1).time_running % U64 →
        (torn_then_unassigned 1).time_running % U64 ≠ 0 →
        mmap_read_self 2 torn_then_unassigned = Outcome.returned
          (rescale ((torn_then_unassigned 1).offset % U64)
            (((torn_then_unassigned 1).time_enabled % U64
              + (torn_then_unassigned 1).delta) % U64)
            ((torn_then_unassigned 1).time_running % U64))) :=
  index_zero_read_ignores_rdpmc_and_scales torn_then_unassigned 1 2 (by decide) (by decide)
    (by decide)

/-- The run of the witness: the first pass, torn, sees index 2 and reads the
register; the second is accepted with index 0, and the call returns the scaled
20. -/
theorem torn_then_unassigned_example :
    (torn_then_unassigned 0).index = 2 ∧ (torn_then_unassigned 1).index = 0 ∧
      mmap_read_self 2 torn_then_unassigned = Outcome.returned 20 := by
  refine ⟨by decide, by decide, by decide⟩

/-! ## Division by a zero running time -/

/-- C8, the claim as stated fails: on a settled page with index == 0,
time_enabled == 1 and time_running == 0 the division is evaluated with divisor
0 and the call ends in the divide error; it does not return 0. -/
theorem never_ran_read_faults :
    never_ran_pass.divisor = 0 ∧
      mmap_read_self 1 (fun _ => never_ran_pass) = Outcome.divide_error ∧
      mmap_read_self 1 (fun _ => never_ran_pass) ≠ Outcome.returned 0 := by
  refine ⟨by decide, by decide, by decide⟩

/-- C8, amended: `mmap_read_self` has no guard on the divisor.  For every
accepted snapshot with time_enabled != time_running, when the running time used
as divisor is 0 the division is evaluated and the call ends in the divide
error, and when it is not 0 the call returns the rescaled count. -/
theorem zero_divisor_is_not_guarded (obs : Nat → Pass) (k fuel : Nat)
    (hacc : accepted_at obs k) (hf : k < fuel)
    (hne : (obs k).time_enabled % U64 ≠ (obs k).time_running % U64) :
    ((obs k).divisor = 0 → mmap_read_self fuel obs = Outcome.divide_error) ∧
      ((obs k).divisor ≠ 0 →
        mmap_read_self fuel obs = Outcome.returned
          (rescale (loop_body Locals.entry (obs k)).count
            (((obs k).time_enabled % U64 + (obs k).delta) % U64) (obs k).divisor)) := by
  rw [mmap_read_self_accepted obs k fuel hacc hf]
  unfold Pass.divisor Pass.delta snapshot_result scale_and_return
  by_cases hi : (obs k).index % U32 = 0
  · constructor <;> intro h <;> simp only [loop_body, hne, hi, ne_eq, not_true_eq_false,
      not_false_eq_true, if_true, if_false] at h ⊢ <;> simp only [h, if_true, if_false]
  · constructor <;> intro h <;> simp only [loop_body, hne, hi, ne_eq,
      not_false_eq_true, if_true, if_false] at h ⊢ <;> simp only [h, if_true, if_false]

theorem zero_divisor_is_not_guarded_witness :
    (never_ran_pass.divisor = 0 →
        mmap_read_self 1 (fun _ => never_ran_pass) = Outcome.divide_error) ∧
      (never_ran_pass.divisor ≠ 0 →
        mmap_read_self 1 (fun _ => never_ran_pass) = Outcome.returned
          (rescale (loop_body Locals.entry never_ran_pass).count
            ((never_ran_pass.time_enabled % U64 + never_ran_pass.delta) % U64)
            never_ran_pass.divisor)) :=
  zero_divisor_is_not_guarded (fun _ => never_ran_pass) 0 1 (by decide) (by decide)
    (by decide)

/-! ## Rescaling -/

theorem mod_U64_le (x : Nat) : x % U64 ≤ x := Nat.mod_le x U64

theorem exact_split (count enabled running : Nat) (hrun : 0 < running) :
    count * enabled / running
      = count / running * enabled + count % running * enabled / running := by
  have h : count * enabled
      = count % running * enabled + running * (count / running * enabled) := by
    conv_lhs => rw [← Nat.div_add_mod count running]
    ring
  rw [h, Nat.add_mul_div_left _ _ hrun]
  ring

theorem rescale_le_sum (count enabled running : Nat) :
    rescale count enabled running
      ≤ count / running * enabled + count % running * enabled / running := by
  unfold rescale
  refine le_trans (Nat.mod_le _ _) ?_
  exact Nat.add_le_add (Nat.mod_le _ _) (Nat.div_le_div_right (Nat.mod_le _ _))

/-- C1, the claim as stated fails: with count = 2^63, enabled = 4 and
running = 1 the u64 product `quot * enabled` wraps to 0, so the rescaled count
is 0 while the exact quotient is 2^65. -/
theorem rescale_wraps_far_below_exact :
    rescale (2 ^ 63) 4 1 = 0 ∧ 2 ^ 63 * 4 / 1 = 2 ^ 65 ∧
      ¬ (2 ^ 63 * 4 / 1 - rescale (2 ^ 63) 4 1 ≤ 1) := by
  refine ⟨?_, ?_, ?_⟩ <;> norm_num [rescale, U64]

/-- C1, amended: for running > 0 the rescaled count never exceeds
floor(count * enabled / running), and it equals that quotient (truncation
error 0) whenever the product `(count % running) * enabled` and the quotient
itself fit in 64 bits. -/
theorem rescale_le_exact_and_exact_without_wrap (count enabled running : Nat)
    (hrun : 0 < running) :
    rescale count enabled running ≤ count * enabled / running ∧
      (count % running * enabled < U64 → count * enabled / running < U64 →
        rescale count enabled running = count * enabled / running) := by
  refine ⟨?_, ?_⟩
  · rw [exact_split count enabled running hrun]
    exact rescale_le_sum count enabled running
  · intro hrem hfit
    rw [exact_split count enabled running hrun] at hfit ⊢
    have hq : count / running * enabled < U64 := lt_of_le_of_lt (Nat.le_add_right _ _) hfit
    unfold rescale
    simp only [Nat.mod_eq_of_lt hq, Nat.mod_eq_of_lt hrem, Nat.mod_eq_of_lt hfit]

theorem rescale_le_exact_and_exact_without_wrap_witness :
    rescale 10 6 4 ≤ 10 * 6 / 4 ∧
      (10 % 4 * 6 < U64 → 10 * 6 / 4 < U64 → rescale 10 6 4 = 10 * 6 / 4) :=
  rescale_le_exact_and_exact_without_wrap 10 6 4 (by decide)

/-! ## test__basic_mmap: the count check -/

/-- After a record has been counted `err` holds the 0 that
`perf_evlist__parse_sample` returned. -/
theorem drain_events_ok_err (id2evsel : Nat → Option (Fin 4)) :
    ∀ (events : List mmap_event) (st st1 : basic_mmap_state), events ≠ [] →
      drain_events id2evsel events st = Except.ok st1 → st1.err = 0 := by
  intro events
  induction events with
  | nil => intro st st1 h; exact absurd rfl h
  | cons event rest ih =>
    intro st st1 _ h
    unfold drain_events at h
    by_cases ht : event.type = PERF_RECORD_SAMPLE
    · by_cases hp : event.parse_err = 0
      · cases hid : id2evsel event.id with
        | none => simp [ht, hp, hid] at h
        | some idx =>
          simp only [ht, hp, hid, ne_eq, not_true_eq_false, if_false] at h
          cases rest with
          | nil =>
            simp only [drain_events, Except.ok.injEq] at h
            rw [← h]
          | cons e2 rest2 => exact ih _ st1 (List.cons_ne_nil e2 rest2) h
      · simp [ht, hp] at h
    · simp [ht] at h

/-- C10, the code at the failing input: two events are expected for the first
evsel and one SAMPLE arrives, so after draining `nr_events[0] == 1` differs
from `expected_nr_events[0] == 2`, and `test__basic_mmap` returns 0. -/
theorem test__basic_mmap_miscount_returns_zero :
    (∃ st, drain_events one_sample_short_env.perf_evlist__id2evsel
          one_sample_short_env.events { err := -1, nr_events := fun _ => 0 } = Except.ok st ∧
        st.nr_events 0 = 1) ∧
      expected_nr_events one_sample_short_env 0 = 2 ∧
      test__basic_mmap one_sample_short_env = 0 := by
  refine ⟨⟨_, rfl, by decide⟩, by decide, by decide⟩

/-! ## test__basic_mmap: orphan samples -/

/-- Records that are counted, then a SAMPLE whose id maps to no evsel: the loop
is left through `goto out_munmap` with `err == 0`, whatever follows. -/
theorem drain_events_orphan (id2evsel : Nat → Option (Fin 4)) (orphan : mmap_event)
    (post : List mmap_event) (htype : orphan.type = PERF_RECORD_SAMPLE)
    (hparse : orphan.parse_err = 0) (hid : id2evsel orphan.id = none) :
    ∀ (pre : List mmap_event) (st : basic_mmap_state),
      (∀ e ∈ pre, e.type = PERF_RECORD_SAMPLE ∧ e.parse_err = 0 ∧ id2evsel e.id ≠ none) →
      drain_events id2evsel (pre ++ orphan :: post) st = Except.error 0 := by
  intro pre
  induction pre with
  | nil =>
    intro st _
    simp [drain_events, htype, hparse, hid]
  | cons e rest ih =>
    intro st h
    obtain ⟨ht, hp, hi⟩ := h e (List.mem_cons_self e rest)
    obtain ⟨idx, hidx⟩ := Option.ne_none_iff_exists'.mp hi
    simp only [List.cons_append, drain_events, ht, hp, hidx, ne_eq, not_true_eq_false,
      if_false]
    exact ih _ (fun e' he' => h e' (List.mem_cons_of_mem e he'))

/-- C11, the code at the failing input: the evsels have the ids 1 to 4 and the
only record is a SAMPLE with id 99, which `perf_evlist__id2evsel` does not
find; `test__basic_mmap` returns 0. -/
theorem test__basic_mmap_orphan_returns_zero :
    orphan_sample_env.perf_evlist__id2evsel 99 = none ∧
      test__basic_mmap orphan_sample_env = 0 := by
  refine ⟨by decide, by decide⟩

/-! ## test__syscall_open_tp_fields -/

/-- C12, the code at the two failing inputs: when the first SAMPLE carries
flags 0 instead of 0200000, and when no record arrives in any of the six
passes, `test__syscall_open_tp_fields` returns 0. -/
theorem test__syscall_open_tp_fields_failures_return_zero :
    test__syscall_open_tp_fields wrong_flags_env = 0 ∧
      test__syscall_open_tp_fields no_event_env = 0 := by
  refine ⟨by decide, by decide⟩

/-! ## perf_evsel__test_field -/

/-- With a nonzero flag bit `is_signed` is always 1, so the result depends on
the field being found and on its size only. -/
theorem perf_evsel__test_field_ignores_sign (FIELD_IS_SIGNED : Nat)
    (hbit : FIELD_IS_SIGNED ≠ 0) (field : format_field) (size : Int)
    (should_be_signed : Bool) :
    perf_evsel__test_field FIELD_IS_SIGNED (some field) size should_be_signed
      = if field.size ≠ size then -1 else 0 := by
  have hor : field.flags ||| FIELD_IS_SIGNED ≠ 0 := by
    intro h
    apply hbit
    apply Nat.eq_of_testBit_eq
    intro i
    have hi := congrArg (fun n => Nat.testBit n i) h
    simp only [Nat.testBit_or, Nat.zero_testBit, Bool.or_eq_false_iff] at hi
    rw [hi.2, Nat.zero_testBit]
  simp [perf_evsel__test_field, hor]

/-- C13, the code at the failing input: a field of the right size 4 whose flags
are 0, so without FIELD_IS_SIGNED (the bit 4), tested with should_be_signed
true; `perf_evsel__test_field` returns 0. -/
theorem perf_evsel__test_field_unsigned_passes :
    (0 : Nat) &&& 4 = 0 ∧
      perf_evsel__test_field 4 (some { flags := 0, size := 4 }) 4 true = 0 := by
  refine ⟨by decide, by decide⟩

/-! ## Test numbers and selection -/

theorem cmd_test_loop_numbers (argv : List String) :
    ∀ (rest : List String) (i : Nat) (line : Nat × String),
      line ∈ cmd_test_loop argv rest i →
      ∃ c, line.1 = c + 1 ∧ i ≤ c ∧ rest[c - i]? = some line.2 := by
  intro rest
  induction rest with
  | nil => intro i line h; simp [cmd_test_loop] at h
  | cons desc rest ih =>
    intro i line h
    have hrec : line ∈ cmd_test_loop argv rest (i + 1) →
        ∃ c, line.1 = c + 1 ∧ i ≤ c ∧ (desc :: rest)[c - i]? = some line.2 := by
      intro h1
      obtain ⟨c, hc, hle, hget⟩ := ih (i + 1) line h1
      refine ⟨c, hc, by omega, ?_⟩
      rw [show c - i = (c - (i + 1)) + 1 by omega, List.getElem?_cons_succ]
      exact hget
    unfold cmd_test_loop at h
    cases hm : perf_test__matches i argv with
    | true =>
      simp only [hm, Bool.true_eq_false, if_false, List.mem_cons] at h
      rcases h with rfl | h
      · exact ⟨i, rfl, le_refl i, by simp⟩
      · exact hrec h
    | false =>
      simp only [hm, if_true] at h
      exact hrec h

theorem test_list_loop_numbers (argv : List String) :
    ∀ (rest : List String) (i : Nat) (line : Nat × String),
      line ∈ test_list_loop argv rest i →
      ∃ c, line.1 = c + 1 ∧ i ≤ c ∧ rest[c - i]? = some line.2 := by
  intro rest
  induction rest with
  | nil => intro i line h; simp [test_list_loop] at h
  | cons desc rest ih =>
    intro i line h
    have hrec : line ∈ test_list_loop argv rest (i + 1) →
        ∃ c, line.1 = c + 1 ∧ i ≤ c ∧ (desc :: rest)[c - i]? = some line.2 := by
      intro h1
      obtain ⟨c, hc, hle, hget⟩ := ih (i + 1) line h1
      refine ⟨c, hc, by omega, ?_⟩
      rw [show c - i = (c - (i + 1)) + 1 by omega, List.getElem?_cons_succ]
      exact hget
    unfold test_list_loop at h
    by_cases hm : argv.length > 1 ∧ strstr desc.toList (argv.getD 1 "").toList = false
    · simp only [hm, and_self, if_true] at h
      exact hrec h
    · simp only [hm, if_false, List.mem_cons] at h
      rcases h with rfl | h
      · exact ⟨i, rfl, le_refl i, by simp⟩
      · exact hrec h

theorem isdigit_not_isspace (c : Char) (h : isdigit c = true) : isspace c = false := by
  unfold isdigit at h
  unfold isspace
  simp only [Bool.and_eq_true, decide_eq_true_eq] at h
  simp only [Bool.or_eq_false_iff, Bool.and_eq_false_imp, decide_eq_false_iff_not,
    decide_eq_true_eq]
  omega

theorem strip_sign_of_digits (l : List Char) (h : ∀ x ∈ l, isdigit x = true) :
    strip_sign l = (false, l) := by
  cases l with
  | nil => rfl
  | cons c rest =>
    have hc := h c (List.mem_cons_self c rest)
    have hminus : c ≠ '-' := by rintro rfl; exact absurd hc (by decide)
    have hplus : c ≠ '+' := by rintro rfl; exact absurd hc (by decide)
    unfold strip_sign
    split
    · rename_i heq; exact absurd (List.cons.inj heq).1 hminus
    · rename_i heq; exact absurd (List.cons.inj heq).1 hplus
    · rfl

/-- What `strtoul` returns on a string of decimal digits. -/
theorem strtoul_of_digits (l : List Char) (h : ∀ x ∈ l, isdigit x = true) :
    strtoul l = (if U64 ≤ decimal_value l then U64 - 1 else decimal_value l, []) := by
  cases l with
  | nil => decide
  | cons c rest =>
    have hc := h c (List.mem_cons_self c rest)
    have hsp : List.dropWhile isspace (c :: rest) = c :: rest := by
      rw [List.dropWhile_cons_of_neg]
      simp [isdigit_not_isspace c hc]
    have htake : List.takeWhile isdigit (c :: rest) = c :: rest :=
      List.takeWhile_eq_self_iff.mpr h
    have hdrop : List.dropWhile isdigit (c :: rest) = [] :=
      List.dropWhile_eq_nil_iff.mpr h
    unfold strtoul
    simp only [hsp, strip_sign_of_digits (c :: rest) h, htake, hdrop]
    by_cases hbig : U64 ≤ decimal_value (c :: rest)
    · simp [hbig]
    · simp [hbig]

theorem matches_digits_iff (s : String) (curr : Nat)
    (hdigits : s.toList.all isdigit = true) (hcurr : curr + 1 < 2 ^ 31) :
    perf_test__matches curr [s] = true ↔ decimal_value s.toList = curr + 1 := by
  have hall : ∀ x ∈ s.toList, isdigit x = true := List.all_eq_true.mp hdigits
  have hloop : matches_loop curr [s]
      = if wrap_long ((strtoul s.toList).1 : Nat) = wrap_int (curr + 1) then true else false := by
    have hend : (strtoul s.toList).2 = [] := by rw [strtoul_of_digits s.toList hall]
    simp only [matches_loop, hend, if_true]
  unfold perf_test__matches
  rw [if_neg (by simp), hloop, strtoul_of_digits s.toList hall]
  by_cases hbig : U64 ≤ decimal_value s.toList
  · simp only [hbig, if_true]
    unfold wrap_long wrap_int
    unfold U64 at hbig ⊢
    constructor
    · intro h
      exfalso
      simp only [ite_eq_left_iff, Bool.false_eq_true, imp_false, not_not] at h
      omega
    · intro h; omega
  · simp only [hbig, if_false]
    unfold wrap_long wrap_int
    unfold U64 at hbig
    constructor
    · intro h
      simp only [ite_eq_left_iff, Bool.false_eq_true, imp_false, not_not] at h
      omega
    · intro h
      simp only [ite_eq_left_iff, Bool.false_eq_true, imp_false, not_not]
      omega

/-- The loop of `__cmd_test` prints, in table order, the entries that match,
each with its index plus one. -/
theorem cmd_test_loop_eq (argv : List String) :
    ∀ (rest : List String) (i : Nat),
      cmd_test_loop argv rest i
        = ((rest.enumFrom i).filter (fun p => perf_test__matches p.1 argv)).map
            (fun p => (p.1 + 1, p.2)) := by
  intro rest
  induction rest with
  | nil => intro i; rfl
  | cons desc rest ih =>
    intro i
    unfold cmd_test_loop
    cases hm : perf_test__matches i argv with
    | true =>
      simp only [Bool.true_eq_false, if_false, List.enumFrom_cons, List.filter_cons, hm,
        if_true, List.map_cons, ih]
    | false =>
      simp only [if_true, List.enumFrom_cons, List.filter_cons, hm, Bool.false_eq_true,
        if_false, ih]

/-- The loop of `perf_test__list` prints, in table order, every entry when
there is no fragment and otherwise those whose description contains `argv[1]`,
each with its index plus one. -/
theorem test_list_loop_eq (argv : List String) :
    ∀ (rest : List String) (i : Nat),
      test_list_loop argv rest i
        = ((rest.enumFrom i).filter
            (fun p => decide (argv.length ≤ 1) ||
              strstr p.2.toList (argv.getD 1 "").toList)).map
            (fun p => (p.1 + 1, p.2)) := by
  intro rest
  induction rest with
  | nil => intro i; rfl
  | cons desc rest ih =>
    intro i
    unfold test_list_loop
    simp only [List.enumFrom_cons, List.filter_cons, ih]
    generalize List.filter
      (fun p : Nat × String => decide (argv.length ≤ 1) ||
        strstr p.2.toList (argv.getD 1 "").toList)
      (List.enumFrom (i + 1) rest) = tail
    generalize strstr desc.toList (argv.getD 1 "").toList = found
    by_cases hlen : argv.length > 1
    · have hle : ¬ argv.length ≤ 1 := by omega
      cases found <;> simp [hlen, hle]
    · have hle : argv.length ≤ 1 := by omega
      cases found <;> simp [hlen, hle]

/-- C14: test numbers are 1-based in both listings: `__cmd_test` prints, in
table order, exactly the entries `perf_test__matches` selects, and
`perf_test__list` exactly the entries whose description contains the fragment
(all of them without a fragment), each entry of table index `curr` with the
number `curr + 1`; and for an argument list made of one string of decimal
digits denoting n (the empty string denotes 0), `perf_test__matches` is true
exactly when n == curr + 1, the description not being consulted. -/
theorem test_numbers_are_one_based (argv list_argv : List String) (s : String)
    (curr : Nat) (hdigits : s.toList.all isdigit = true) (hcurr : curr + 1 < 2 ^ 31) :
    __cmd_test argv
        = (tests.enum.filter (fun p => perf_test__matches p.1 argv)).map
            (fun p => (p.1 + 1, p.2)) ∧
      perf_test__list list_argv
        = (tests.enum.filter
            (fun p => decide (list_argv.length ≤ 1) ||
              strstr p.2.toList (list_argv.getD 1 "").toList)).map
            (fun p => (p.1 + 1, p.2)) ∧
      (perf_test__matches curr [s] = true ↔ decimal_value s.toList = curr + 1) :=
  ⟨cmd_test_loop_eq argv tests 0, test_list_loop_eq list_argv tests 0,
    matches_digits_iff s curr hdigits hcurr⟩

theorem test_numbers_are_one_based_witness :
    __cmd_test ["6", "mmap"]
        = (tests.enum.filter (fun p => perf_test__matches p.1 ["6", "mmap"])).map
            (fun p => (p.1 + 1, p.2)) ∧
      perf_test__list ["list", "syscall"]
        = (tests.enum.filter
            (fun p => decide (["list", "syscall"].length ≤ 1) ||
              strstr p.2.toList (["list", "syscall"].getD 1 "").toList)).map
            (fun p => (p.1 + 1, p.2)) ∧
      (perf_test__matches 5 ["86"] = true ↔ decimal_value "86".toList = 5 + 1) :=
  test_numbers_are_one_based ["6", "mmap"] ["list", "syscall"] "86" 5 (by decide)
    (by decide)

/-- What the listings of the witness print, and the full numbered list. -/
theorem test_numbers_example :
    __cmd_test ["6", "mmap"]
        = [(4, "read samples using the mmap interface"), (6, "x86 rdpmc test")] ∧
      perf_test__list ["list", "syscall"]
        = [(2, "detect open syscall event"), (3, "detect open syscall event on all cpus"),
            (12, "Generate and check syscalls:sys_enter_open event fields")] ∧
      (perf_test__list ["list"]).map Prod.fst = [1, 2, 3, 4, 5, 6, 7, 8, 9, 10, 11, 12] ∧
      (__cmd_test []).map Prod.fst = [1, 2, 3, 4, 5, 6, 7, 8, 9, 10, 11, 12] ∧
      perf_test__matches 5 ["86"] = false ∧ perf_test__matches 5 ["6"] = true := by
  refine ⟨by decide, by decide, by decide, by decide, by decide, by decide⟩

theorem matches_loop_iff_exists (curr : Nat) :
    ∀ argv : List String,
      matches_loop curr argv = true ↔ ∃ a ∈ argv, matches_loop curr [a] = true := by
  intro argv
  induction argv with
  | nil => simp [matches_loop]
  | cons arg rest ih =>
    simp only [List.mem_cons, exists_eq_or_imp, ← ih]
    simp only [matches_loop]
    split_ifs <;> simp

theorem matches_loop_fragment (curr : Nat) (a : String)
    (hfrag : (strtoul a.toList).2 ≠ []) :
    matches_loop curr [a] = true ↔ a.toList <:+: (tests_desc curr).toList := by
  simp only [matches_loop, hfrag, if_false, strstr]
  split_ifs with h
  · simpa using h
  · simpa using h

theorem mem_dropWhile_of_not (p : Char → Bool) (c : Char) (l : List Char)
    (hc : c ∈ l) (hp : p c = false) : c ∈ l.dropWhile p := by
  rw [← List.takeWhile_append_dropWhile p l] at hc
  rcases List.mem_append.mp hc with h | h
  · rw [List.mem_takeWhile_imp h] at hp
    exact absurd hp (by decide)
  · exact h

theorem mem_strip_sign (c : Char) (l : List Char) (hc : c ∈ l)
    (hplus : c ≠ '+') (hminus : c ≠ '-') : c ∈ (strip_sign l).2 := by
  unfold strip_sign
  split
  · rcases List.mem_cons.mp hc with h | h
    · exact absurd h hminus
    · exact h
  · rcases List.mem_cons.mp hc with h | h
    · exact absurd h hplus
    · exact h
  · exact hc

/-- An argument with a character that is neither a digit, nor white space, nor
a sign is not a test number. -/
theorem non_numeric_of_other_char (arg : String) (c : Char) (hc : c ∈ arg.toList)
    (hdigit : isdigit c = false) (hspace : isspace c = false)
    (hplus : c ≠ '+') (hminus : c ≠ '-') : non_numeric arg := by
  have hne : arg.toList ≠ [] := List.ne_nil_of_mem hc
  have hend : c ∈ List.dropWhile isdigit (strip_sign (arg.toList.dropWhile isspace)).2 :=
    mem_dropWhile_of_not isdigit c _
      (mem_strip_sign c _ (mem_dropWhile_of_not isspace c _ hc hspace) hplus hminus) hdigit
  have hend' := List.ne_nil_of_mem hend
  unfold non_numeric strtoul
  dsimp only
  split_ifs <;> assumption

/-- C15: `perf_test__matches` is true for every `curr` when `argc == 0`; with
at least one argument, all of them non-numeric, it is true exactly when some
argument is a substring of `tests[curr].desc`; and with any arguments, at least
one, the selection is the union of the selections of the single arguments. -/
theorem fragments_select_by_substring (curr : Nat) (argv : List String) :
    perf_test__matches curr [] = true ∧
      (argv ≠ [] → (∀ a ∈ argv, non_numeric a) →
        (perf_test__matches curr argv = true ↔
          ∃ a ∈ argv, a.toList <:+: (tests_desc curr).toList)) ∧
      (argv ≠ [] →
        (perf_test__matches curr argv = true ↔
          ∃ a ∈ argv, perf_test__matches curr [a] = true)) := by
  have hsingle : ∀ a : String, perf_test__matches curr [a] = matches_loop curr [a] := by
    intro a
    unfold perf_test__matches
    rw [if_neg (by simp)]
  have hmany : argv ≠ [] → perf_test__matches curr argv = matches_loop curr argv := by
    intro hne
    unfold perf_test__matches
    rw [if_neg (by simpa using hne)]
  refine ⟨rfl, ?_, ?_⟩
  · intro hne hfrag
    rw [hmany hne, matches_loop_iff_exists]
    constructor
    · rintro ⟨a, ha, hm⟩
      exact ⟨a, ha, (matches_loop_fragment curr a (hfrag a ha)).mp hm⟩
    · rintro ⟨a, ha, hm⟩
      exact ⟨a, ha, (matches_loop_fragment curr a (hfrag a ha)).mpr hm⟩
  · intro hne
    rw [hmany hne, matches_loop_iff_exists]
    simp only [hsingle]

theorem fragments_select_by_substring_witness :
    perf_test__matches 5 [] = true ∧
      (perf_test__matches 5 ["mmap", "rdpmc"] = true ↔
        ∃ a ∈ ["mmap", "rdpmc"], a.toList <:+: (tests_desc 5).toList) ∧
      (perf_test__matches 5 ["mmap", "rdpmc"] = true ↔
        ∃ a ∈ ["mmap", "rdpmc"], perf_test__matches 5 [a] = true) :=
  ⟨(fragments_select_by_substring 5 ["mmap", "rdpmc"]).1,
    (fragments_select_by_substring 5 ["mmap", "rdpmc"]).2.1 (by decide) (by decide),
    (fragments_select_by_substring 5 ["mmap", "rdpmc"]).2.2 (by decide)⟩

/-- The arguments `mmap` and `rdpmc` are non-numeric and select the tests 4
and 6. -/
theorem fragments_select_example :
    (∀ a ∈ ["mmap", "rdpmc"], non_numeric a) ∧
      __cmd_test ["mmap", "rdpmc"]
        = [(4, "read samples using the mmap interface"), (6, "x86 rdpmc test")] := by
  refine ⟨by decide, by decide⟩

/-! ## test__PERF_RECORD: the sample checks -/

theorem count_error_bounds (cond : Prop) [Decidable cond] (errs : Int)
    (h0 : 0 ≤ errs) (hroom : errs + 1 < 2 ^ 31) :
    errs ≤ count_error cond errs ∧ count_error cond errs ≤ errs + 1 ∧
      (cond → count_error cond errs = errs + 1) := by
  unfold count_error wrap_int
  by_cases h : cond
  · simp only [h, if_true, true_implies]
    omega
  · simp only [h, if_false, false_implies, and_true]
    omega

theorem sample_errs_bounds (cpu : Nat) (wpid : Int) (prev : Nat) (errs : Int)
    (event : perf_record) (h0 : 0 ≤ errs) (hroom : errs + 6 < 2 ^ 31) :
    errs ≤ sample_errs cpu wpid prev errs event ∧
      sample_errs cpu wpid prev errs event ≤ errs + 6 ∧
      ((event.time < prev ∨ event.cpu ≠ cpu ∨ wrap_int event.pid ≠ wpid ∨
          wrap_int event.tid ≠ wpid) →
        errs + 1 ≤ sample_errs cpu wpid prev errs event) := by
  unfold sample_errs
  dsimp only
  have b1 := count_error_bounds (prev > event.time) errs h0 (by omega)
  have b2 := count_error_bounds (event.cpu ≠ cpu) _ (le_trans h0 b1.1) (by omega)
  have b3 := count_error_bounds (wrap_int event.pid ≠ wpid) _
    (le_trans h0 (le_trans b1.1 b2.1)) (by omega)
  have b4 := count_error_bounds (wrap_int event.tid ≠ wpid) _
    (le_trans h0 (le_trans b1.1 (le_trans b2.1 b3.1))) (by omega)
  have b5 := count_error_bounds
    ((event.type = PERF_RECORD_COMM ∨ event.type = PERF_RECORD_MMAP ∨
      event.type = PERF_RECORD_FORK ∨ event.type = PERF_RECORD_EXIT) ∧
      wrap_int event.comm_pid ≠ wpid) _
    (le_trans h0 (le_trans b1.1 (le_trans b2.1 (le_trans b3.1 b4.1)))) (by omega)
  have b6 := count_error_bounds
    ((event.type = PERF_RECORD_COMM ∨ event.type = PERF_RECORD_MMAP) ∧
      event.comm_pid ≠ event.comm_tid) _
    (le_trans h0 (le_trans b1.1 (le_trans b2.1 (le_trans b3.1 (le_trans b4.1 b5.1)))))
    (by omega)
  refine ⟨by omega, by omega, ?_⟩
  rintro (h | h | h | h)
  · have := b1.2.2 h; omega
  · have := b2.2.2 h; omega
  · have := b3.2.2 h; omega
  · have := b4.2.2 h; omega

theorem note_mmap_errs (filename : String) (st : record_state) :
    (note_mmap filename st).errs = st.errs ∧
      (note_mmap filename st).prev_time = st.prev_time := by
  unfold note_mmap
  split
  · exact ⟨rfl, rfl⟩
  · split <;> exact ⟨rfl, rfl⟩

/-- A record that fails to parse ends the scan through `out_err` with a
negative `err`. -/
theorem read_record_parse_failure (cpu : Nat) (wpid : Int) (st : record_state)
    (event : perf_record) (hparse : event.parse_err < 0) :
    ∃ st1, read_record cpu wpid st event = record_exit.out_err st1 ∧ st1.err < 0 := by
  unfold read_record
  simp only [hparse, if_true]
  exact ⟨_, rfl, hparse⟩

/-- A record that parses is checked: `errs` grows by at most 7, and by at least
1 when its time, cpu, pid or tid is wrong; an EXIT record ends the scan. -/
theorem read_record_parsed (cpu : Nat) (wpid : Int) (st : record_state)
    (event : perf_record) (hparse : ¬ event.parse_err < 0) (h0 : 0 ≤ st.errs)
    (hroom : st.errs + 7 < 2 ^ 31) :
    ∃ st1,
      (if event.type = PERF_RECORD_EXIT then
          read_record cpu wpid st event = record_exit.found_exit st1
        else read_record cpu wpid st event = record_exit.next st1) ∧
      st1.prev_time = event.time ∧ st.errs ≤ st1.errs ∧ st1.errs ≤ st.errs + 7 ∧
      ((event.time < st.prev_time ∨ event.cpu ≠ cpu ∨ wrap_int event.pid ≠ wpid ∨
          wrap_int event.tid ≠ wpid) → st.errs + 1 ≤ st1.errs) := by
  obtain ⟨hlo, hhi, hbad⟩ :=
    sample_errs_bounds cpu wpid st.prev_time st.errs event h0 (by omega)
  unfold read_record
  simp only [hparse, if_false]
  by_cases hcomm : event.type = PERF_RECORD_COMM
  · have hne : ¬ event.type = PERF_RECORD_EXIT := by rw [hcomm]; decide
    have b := count_error_bounds (event.comm ≠ "sleep")
      (sample_errs cpu wpid st.prev_time st.errs event) (le_trans h0 hlo) (by omega)
    simp only [hcomm, if_true] at hne ⊢
    refine ⟨_, by rw [if_neg (by decide)], rfl, ?_, ?_, ?_⟩
    · dsimp only; omega
    · dsimp only; omega
    · intro h; have := hbad h; dsimp only; omega
  · by_cases hexit : event.type = PERF_RECORD_EXIT
    · simp only [hcomm, hexit, if_true, if_false]
      exact ⟨_, rfl, rfl, hlo, by dsimp only; omega, hbad⟩
    · by_cases hmmap : event.type = PERF_RECORD_MMAP
      · simp only [hcomm, hexit, hmmap, if_true, if_false]
        refine ⟨_, rfl, ?_, ?_, ?_, ?_⟩
        · rw [(note_mmap_errs _ _).2]
        · rw [(note_mmap_errs _ _).1]; exact hlo
        · rw [(note_mmap_errs _ _).1]; dsimp only; omega
        · intro h; rw [(note_mmap_errs _ _).1]; exact hbad h
      · by_cases hsample : event.type = PERF_RECORD_SAMPLE
        · simp only [hcomm, hexit, hmmap, hsample, if_true, if_false]
          exact ⟨_, rfl, rfl, hlo, by dsimp only; omega, hbad⟩
        · simp only [hcomm, hexit, hmmap, hsample, if_false]
          have hw : wrap_int (sample_errs cpu wpid st.prev_time st.errs event + 1)
              = sample_errs cpu wpid st.prev_time st.errs event + 1 := by
            unfold wrap_int; omega
          refine ⟨_, rfl, rfl, ?_, ?_, ?_⟩
          · dsimp only; rw [hw]; omega
          · dsimp only; rw [hw]; omega
          · intro h; have := hbad h; dsimp only; rw [hw]; omega

theorem records_read_stop (event : perf_record) (rest : List perf_record)
    (h : event.parse_err < 0 ∨ event.type = PERF_RECORD_EXIT) :
    records_read (event :: rest) = [event] := by
  simp only [records_read, h, if_true]

theorem records_read_go (event : perf_record) (rest : List perf_record)
    (h : ¬ (event.parse_err < 0 ∨ event.type = PERF_RECORD_EXIT)) :
    records_read (event :: rest) = event :: records_read rest := by
  simp only [records_read, h, if_false]

theorem has_violation_cons (cpu : Nat) (wpid : Int) (prev : Nat) (event : perf_record)
    (rest : List perf_record) :
    has_violation cpu wpid prev (event :: rest) ↔
      (event.parse_err < 0 ∨ event.cpu ≠ cpu ∨ wrap_int event.pid ≠ wpid ∨
        wrap_int event.tid ≠ wpid) ∨
      event.time < prev ∨ has_violation cpu wpid event.time rest := by
  simp only [has_violation]
  constructor
  · rintro (h | h | h | h | h | h)
    · left; left; exact h
    · right; left; exact h
    · left; right; left; exact h
    · left; right; right; left; exact h
    · left; right; right; right; exact h
    · right; right; exact h
  · rintro ((h | h | h | h) | h | h)
    · left; exact h
    · right; right; left; exact h
    · right; right; right; left; exact h
    · right; right; right; right; left; exact h
    · right; left; exact h
    · right; right; right; right; right; exact h

/-- The scan of a list of records checks every record it reads. -/
theorem read_events_checked (cpu : Nat) (wpid : Int) :
    ∀ (l : List perf_record) (st : record_state), 0 ≤ st.errs →
      st.errs + 7 * (records_read l).length < 2 ^ 31 →
      exit_ok cpu wpid st.prev_time st.errs (records_read l) (read_events cpu wpid l st) := by
  intro l
  induction l with
  | nil =>
    intro st _ _
    simp [read_events, records_read, exit_ok, has_violation]
  | cons event rest ih =>
    intro st h0 hroom
    by_cases hparse : event.parse_err < 0
    · obtain ⟨st1, hst1, herr⟩ := read_record_parse_failure cpu wpid st event hparse
      simp only [read_events, hst1, exit_ok]
      exact herr
    · by_cases hexit : event.type = PERF_RECORD_EXIT
      · rw [records_read_stop event rest (Or.inr hexit)] at hroom ⊢
        simp only [List.length_singleton, Nat.cast_one, mul_one] at hroom
        obtain ⟨st1, hst1, -, hlo, hhi, hbad⟩ :=
          read_record_parsed cpu wpid st event hparse h0 hroom
        rw [if_pos hexit] at hst1
        simp only [read_events, hst1, exit_ok, List.length_singleton, Nat.cast_one, mul_one]
        refine ⟨hlo, hhi, ?_⟩
        intro hv
        simp only [has_violation, or_false] at hv
        rcases hv with hv | hv
        · exact absurd hv hparse
        · exact hbad hv
      · have hgo : ¬ (event.parse_err < 0 ∨ event.type = PERF_RECORD_EXIT) := by
          rintro (h | h)
          · exact hparse h
          · exact hexit h
        rw [records_read_go event rest hgo] at hroom ⊢
        simp only [List.length_cons, Nat.cast_add, Nat.cast_one] at hroom
        obtain ⟨st1, hst1, hprev, hlo, hhi, hbad⟩ :=
          read_record_parsed cpu wpid st event hparse h0 (by omega)
        rw [if_neg hexit] at hst1
        have hrec := ih st1 (le_trans h0 hlo) (by omega)
        simp only [read_events, hst1]
        rw [hprev] at hrec
        have hviol : has_violation cpu wpid st.prev_time (event :: records_read rest) →
            (event.time < st.prev_time ∨ event.cpu ≠ cpu ∨ wrap_int event.pid ≠ wpid ∨
              wrap_int event.tid ≠ wpid) ∨
            has_violation cpu wpid event.time (records_read rest) := by
          intro hv
          rcases (has_violation_cons cpu wpid st.prev_time event _).mp hv with
            (hp | hc | hc | hc) | ht | hr
          · exact absurd hp hparse
          · left; right; left; exact hc
          · left; right; right; left; exact hc
          · left; right; right; right; exact hc
          · left; left; exact ht
          · right; exact hr
        cases hx : read_events cpu wpid rest st1 with
        | out_err st2 =>
          rw [hx] at hrec
          simpa only [exit_ok] using hrec
        | found_exit st2 =>
          rw [hx] at hrec
          simp only [exit_ok, List.length_cons, Nat.cast_add, Nat.cast_one] at hrec ⊢
          refine ⟨by omega, by omega, ?_⟩
          intro hv
          rcases hviol hv with h | h
          · have := hbad h; omega
          · have := hrec.2.2 h; omega
        | next st2 =>
          rw [hx] at hrec
          simp only [exit_ok, List.length_cons, Nat.cast_add, Nat.cast_one] at hrec ⊢
          refine ⟨by omega, by omega, ?_⟩
          intro hv
          rcases hviol hv with h | h
          · have := hbad h; omega
          · have := hrec.2.2 h; omega

/-! ## test__PERF_RECORD: the loops read the records in order -/

theorem read_events_append (cpu : Nat) (wpid : Int) (b : List perf_record) :
    ∀ (a : List perf_record) (st : record_state),
      read_events cpu wpid (a ++ b) st
        = match read_events cpu wpid a st with
          | record_exit.next st1 => read_events cpu wpid b st1
          | other => other := by
  intro a
  induction a with
  | nil => intro st; simp [read_events]
  | cons event rest ih =>
    intro st
    simp only [List.cons_append, read_events]
    cases read_record cpu wpid st event with
    | out_err st1 => rfl
    | found_exit st1 => rfl
    | next st1 => exact ih st1

theorem read_mmaps_flatten (cpu : Nat) (wpid : Int) :
    ∀ (mmaps : List (List perf_record)) (st : record_state),
      read_mmaps cpu wpid mmaps st = read_events cpu wpid mmaps.flatten st := by
  intro mmaps
  induction mmaps with
  | nil => intro st; simp [read_mmaps, read_events]
  | cons events rest ih =>
    intro st
    simp only [List.flatten_cons, read_mmaps, read_events_append]
    cases read_events cpu wpid events st with
    | out_err st1 => rfl
    | found_exit st1 => rfl
    | next st1 => exact ih st1

theorem wakeup_loop_flatten (cpu : Nat) (wpid : Int)
    (rounds : Nat → List (List perf_record)) :
    ∀ (left wakeups : Nat) (st : record_state), left + wakeups = 6 →
      wakeup_loop cpu wpid rounds left wakeups st
        = conclude (read_events cpu wpid
            (((List.range' wakeups left).map (fun n => (rounds n).flatten)).flatten) st) := by
  intro left
  induction left with
  | zero => intro wakeups st _; simp [wakeup_loop, read_events, conclude]
  | succ left ih =>
    intro wakeups st hsum
    simp only [wakeup_loop, List.range'_succ, List.map_cons, List.flatten_cons,
      read_events_append, read_mmaps_flatten]
    cases read_events cpu wpid (rounds wakeups).flatten st with
    | out_err st1 => rfl
    | found_exit st1 => rfl
    | next st1 =>
      simp only []
      by_cases hlast : wakeups + 1 > 5
      · have hleft : left = 0 := by omega
        subst hleft
        simp [hlast, read_events, conclude]
      · rw [if_neg hlast]
        exact ih (wakeups + 1) st1 (by omega)

/-! ## test__PERF_RECORD: the result -/

theorem has_violation_of_breaks (cpu : Nat) (wpid : Int) :
    ∀ (read : List perf_record) (prev : Nat), breaks_a_check cpu wpid read →
      has_violation cpu wpid prev read := by
  intro read
  induction read with
  | nil =>
    intro prev h
    rcases h with ⟨e, he, -⟩ | ⟨i, a, b, ha, -, -⟩
    · simp at he
    · simp at ha
  | cons event rest ih =>
    intro prev h
    rw [has_violation_cons]
    rcases h with ⟨e, he, hbad⟩ | ⟨i, a, b, ha, hb, hlt⟩
    · rcases List.mem_cons.mp he with rfl | hmem
      · left; exact hbad
      · right; right
        exact ih event.time (Or.inl ⟨e, hmem, hbad⟩)
    · right; right
      cases i with
      | zero =>
        simp only [List.getElem?_cons_zero, Option.some.injEq] at ha
        simp only [Nat.zero_add, List.getElem?_cons_succ] at hb
        subst ha
        cases rest with
        | nil => simp at hb
        | cons second rest2 =>
          simp only [List.getElem?_cons_zero, Option.some.injEq] at hb
          subst hb
          rw [has_violation_cons]
          right; left
          exact hlt
      | succ j =>
        simp only [List.getElem?_cons_succ] at ha hb
        exact ih event.time (Or.inr ⟨j, a, b, ha, hb, hlt⟩)

theorem record_result_of_errs (err errs : Int) (h : 0 < errs) :
    record_result err errs = -1 := by
  unfold record_result
  rw [if_pos (Or.inr h)]

theorem count_error_pos (cond : Prop) [Decidable cond] (errs : Int)
    (h1 : 1 ≤ errs) (hroom : errs + 1 < 2 ^ 31) :
    1 ≤ count_error cond errs ∧ count_error cond errs ≤ errs + 1 := by
  have b := count_error_bounds cond errs (by omega) hroom
  exact ⟨by omega, b.2.1⟩

theorem found_exit_result_of_errs (st : record_state) (h1 : 1 ≤ st.errs)
    (hroom : st.errs + 6 < 2 ^ 31) : found_exit_result st = -1 := by
  unfold found_exit_result
  dsimp only
  have b1 := count_error_pos (st.nr_events PERF_RECORD_COMM > 1) st.errs h1 (by omega)
  have b2 := count_error_pos (st.nr_events PERF_RECORD_COMM = 0) _ b1.1 (by omega)
  have b3 := count_error_pos (st.found_cmd_mmap = false) _ b2.1 (by omega)
  have b4 := count_error_pos (st.found_libc_mmap = false) _ b3.1 (by omega)
  have b5 := count_error_pos (st.found_ld_mmap = false) _ b4.1 (by omega)
  have b6 := count_error_pos (st.found_vdso_mmap = false) _ b5.1 (by omega)
  exact record_result_of_errs _ _ (by omega)

/-- C16: once setup has succeeded, and for a stream short enough that the
`int errs` cannot overflow, `test__PERF_RECORD` returns -1 whenever some record
it reads, up to and including the EXIT record, fails to parse, or has a
sample.cpu other than the pinned cpu, a sample.pid or sample.tid other than the
workload pid, or a sample.time smaller than that of the record read before
it. -/
theorem test__PERF_RECORD_checks_samples (env : perf_record_env)
    (hsetup : env.setup_ok)
    (hroom : 7 * (records_read (all_records env)).length + 6 < 2 ^ 31)
    (hbad : breaks_a_check (pinned_cpu env) env.workload_pid
      (records_read (all_records env))) :
    test__PERF_RECORD env = -1 := by
  obtain ⟨hnew, hadd, hmaps, hprep, hcpu, haff, hopen, hmmap⟩ := hsetup
  unfold test__PERF_RECORD
  simp only [hnew, Bool.true_eq_false, if_false, not_lt.mpr hadd, not_lt.mpr hmaps,
    not_lt.mpr hprep, not_lt.mpr hcpu, not_lt.mpr haff, not_lt.mpr hopen, not_lt.mpr hmmap]
  rw [wakeup_loop_flatten _ _ _ 6 0 _ rfl]
  have hall : ((List.range' 0 6).map (fun n => (env.rounds n).flatten)).flatten
      = all_records env := by
    unfold all_records
    rw [List.range_eq_range']
  rw [hall]
  have hchk := read_events_checked (pinned_cpu env) env.workload_pid (all_records env)
    { prev_time := 0, found_cmd_mmap := false, found_libc_mmap := false,
      found_vdso_mmap := false, found_ld_mmap := false, err := env.perf_evlist__mmap,
      errs := 0, total_events := 0, nr_events := fun _ => 0 }
    (le_refl 0) (by dsimp only; omega)
  have hviol := has_violation_of_breaks (pinned_cpu env) env.workload_pid _ 0 hbad
  revert hchk
  cases read_events (pinned_cpu env) env.workload_pid (all_records env)
    { prev_time := 0, found_cmd_mmap := false, found_libc_mmap := false,
      found_vdso_mmap := false, found_ld_mmap := false, err := env.perf_evlist__mmap,
      errs := 0, total_events := 0, nr_events := fun _ => 0 } with
  | out_err st1 =>
    intro hchk
    simp only [exit_ok] at hchk
    simp only [conclude, record_result, hchk, true_or, if_true]
  | found_exit st1 =>
    intro hchk
    simp only [exit_ok] at hchk
    have := hchk.2.2 hviol
    exact found_exit_result_of_errs st1 (by omega) (by omega)
  | next st1 =>
    intro hchk
    simp only [exit_ok] at hchk
    have := hchk.2.2 hviol
    exact found_exit_result_of_errs st1 (by omega) (by omega)

theorem test__PERF_RECORD_checks_samples_witness : test__PERF_RECORD (sleep_env 3) = -1 :=
  test__PERF_RECORD_checks_samples (sleep_env 3) (by decide) (by decide)
    (Or.inl ⟨sleep_record 9 15 3 "", by decide, by decide⟩)

/-- The same run with the SAMPLE on the pinned cpu passes. -/
theorem test__PERF_RECORD_clean_run : test__PERF_RECORD (sleep_env 2) = 0 := by decide

end PerfTest
